import Mathlib

/-!
Shallow embedding of the gyeongdohalsaram-server game core (Go) in Lean 4.

The embedding covers the per-tick simulation step of `internal/room/room.go`
(`gameLoop`), the pure game logic of `internal/game` (`logic.go`, `player.go`,
`collision.go`, `constants.go`, `spawn.go`), the alternative arrest resolution
`ProcessArrests`, and the movement handler `HandlePlayerMove` together with
`ClampPosition`.

Modelling conventions:
* Go `float64` values are embedded as `ℚ`.  The only float operation the
  embedded code performs besides field arithmetic is `math.Sqrt` inside
  `Distance`, and every use of `Distance` in the embedded code compares it
  against a nonnegative constant bound, so each range check is embedded as the
  equivalent comparison of squared distances.
* Go `time.Duration`/`time.Time` quantities are embedded in seconds (`ℚ`);
  the zero `time.Time` is embedded as `Option.none`.
* Go pointer mutation of a `*Player` inside a shared slice is embedded as an
  update-by-id over the room's player list (`updatePlayer`); player ids are
  unique within a room (they are UUIDs keyed in `map[string]*Player`).
* Go map iteration order over `r.Players` is nondeterministic; the embedding
  fixes an arbitrary list order for the per-tick snapshot `playerList`.
* Random generation (spawn positions, map objects) is taken as a parameter.
-/

/-- Team assignment of a player (`game.Role`: `RoleNone`, `RolePolice`,
`RoleThief`). -/
inductive Role where
  | roleNone
  | police
  | thief
deriving DecidableEq, Repr

/-- Status of a player (`game.PlayerState`: `StateFree`, `StateArrested`,
`StateInvincible`). -/
inductive PlayerState where
  | free
  | arrested
  | invincible
deriving DecidableEq, Repr

/-- Lifecycle state of a room (`game.RoomState`: `StateWaiting`,
`StatePlaying`, `StateEnded`). -/
inductive RoomState where
  | waiting
  | playing
  | ended
deriving DecidableEq, Repr

/-- Outcome of a finished game (`game.WinResult`). -/
inductive WinResult where
  | winNone
  | police
  | thief
deriving DecidableEq, Repr

/-- Map width in pixels (`game.MapWidth`). -/
def MapWidth : ℚ := 3240

/-- Map height in pixels (`game.MapHeight`). -/
def MapHeight : ℚ := 5760

/-- Movement speed in pixels per second (`game.MoveSpeed`). -/
def MoveSpeed : ℚ := 400

/-- Player radius in pixels (`game.PlayerRadius`). -/
def PlayerRadius : ℚ := 50

/-- Arrest range in pixels (`game.ArrestRange`). -/
def ArrestRange : ℚ := 100

/-- Cumulative arrest duration in seconds (`game.ArrestDuration = 1.5`). -/
def ArrestDuration : ℚ := 3 / 2

/-- Rescue range around the jail in pixels (`game.JailRange`). -/
def JailRange : ℚ := 150

/-- Continuous rescue duration in seconds (`game.RescueDuration = 2.0`). -/
def RescueDuration : ℚ := 2

/-- Total game duration in seconds (`game.GameDuration = 180s`). -/
def GameDuration : ℚ := 180

/-- Tick interval in seconds (`game.TickInterval = 1s / 20`). -/
def TickInterval : ℚ := 1 / 20

/-- Jail x coordinate (`game.JailX = MapWidth / 2`, spawn.go). -/
def JailX : ℚ := MapWidth / 2

/-- Jail y coordinate (`game.JailY = MapHeight * 0.8`, spawn.go). -/
def JailY : ℚ := MapHeight * (8 / 10)

/-- Player record (`game.Player` as used by `room.gameLoop`: identifier, team,
status, position, ready flag, last accepted move time, the two per-tick
gauges, and the invincibility timer). -/
structure Player where
  id : String
  role : Role := Role.roleNone
  pstate : PlayerState := PlayerState.free
  x : ℚ := 0
  y : ℚ := 0
  ready : Bool := false
  lastMoveTime : Option ℚ := Option.none
  arrestGauge : ℚ := 0
  rescueGauge : ℚ := 0
  invincibleTimer : ℚ := 0
deriving DecidableEq, Repr

/-- Role test used where the Go code compares `p.Role == RolePolice`. -/
def Role.isPolice : Role → Bool
  | Role.police => true
  | _ => false

/-- Role test used where the Go code compares `p.Role == RoleThief`. -/
def Role.isThief : Role → Bool
  | Role.thief => true
  | _ => false

/-- Method `Player.SetPosition` (player.go). -/
def Player.SetPosition (p : Player) (x y : ℚ) : Player :=
  { p with x := x, y := y }

/-- Method `Player.Arrest` (player.go lines 123-125): sets the status to
arrested; it does not touch the position or either gauge. -/
def Player.Arrest (p : Player) : Player :=
  { p with pstate := PlayerState.arrested }

/-- Method `Player.Release` (player.go lines 127-129): sets the status to
free; it does not touch the position or either gauge. -/
def Player.Release (p : Player) : Player :=
  { p with pstate := PlayerState.free }

/-- Method `Player.IsArrested` (player.go). -/
def Player.IsArrested (p : Player) : Bool :=
  p.pstate = PlayerState.arrested

/-- Method `Player.IsFree` (player.go). -/
def Player.IsFree (p : Player) : Bool :=
  p.pstate = PlayerState.free

/-- Method `Player.IsInvincible` (player.go). -/
def Player.IsInvincible (p : Player) : Bool :=
  p.pstate = PlayerState.invincible

/-- Method `Player.Reset` (player.go lines 147-153): status to free, ready
cleared, position zeroed, last move time zeroed.  It does not touch the
gauges. -/
def Player.Reset (p : Player) : Player :=
  { p with pstate := PlayerState.free, ready := false, x := 0, y := 0,
           lastMoveTime := Option.none }

/-- Squared Euclidean distance.  `game.Distance` (collision.go) computes
`math.Sqrt(dx*dx + dy*dy)`; every range check in the embedded code compares
that value with a nonnegative bound, which is equivalent to comparing this
square with the squared bound. -/
def DistanceSq (x1 y1 x2 y2 : ℚ) : ℚ :=
  (x1 - x2) * (x1 - x2) + (y1 - y2) * (y1 - y2)

/-- Predicate `game.InArrestRange` (collision.go): distance between a police
officer and a thief is at most `ArrestRange`. -/
def InArrestRange (police thief : Player) : Bool :=
  DistanceSq police.x police.y thief.x thief.y ≤ ArrestRange * ArrestRange

/-- Predicate `game.InJailRange` (collision.go): distance between a thief and
the jail is at most `JailRange`. -/
def InJailRange (thief : Player) (jailX jailY : ℚ) : Bool :=
  DistanceSq thief.x thief.y jailX jailY ≤ JailRange * JailRange

/-- Function `game.FindArrestPairs` (collision helpers): all `[police, thief]`
pairs with the thief free and within arrest range, police-major order. -/
def FindArrestPairs (players : List Player) : List (Player × Player) :=
  let police := players.filter (fun p => p.role.isPolice)
  let thieves := players.filter (fun p => p.role.isThief && p.IsFree)
  police.flatMap (fun cop =>
    (thieves.filter (fun thief => InArrestRange cop thief)).map
      (fun thief => (cop, thief)))

/-- Function `game.FindJailRescueCandidates`: free thieves within rescue range
of the jail. -/
def FindJailRescueCandidates (players : List Player) (jailX jailY : ℚ) :
    List Player :=
  players.filter (fun p => p.role.isThief && p.IsFree && InJailRange p jailX jailY)

/-- Function `game.CheckPoliceWin` (logic.go lines 4-16): true when at least
one thief exists and every thief is arrested. -/
def CheckPoliceWin (players : List Player) : Bool :=
  let thiefCount := (players.filter (fun p => p.role.isThief)).length
  let arrestedCount :=
    (players.filter (fun p => p.role.isThief && p.IsArrested)).length
  decide (0 < thiefCount) && decide (thiefCount = arrestedCount)

/-- Function `game.CheckThiefWin` (logic.go lines 19-29): true when the timer
expired and at least one thief is not arrested. -/
def CheckThiefWin (players : List Player) (timerExpired : Bool) : Bool :=
  if !timerExpired then false
  else players.any (fun p => p.role.isThief && !p.IsArrested)

/-- Update of the player with the given id (Go mutates the player through a
shared pointer; ids are unique within a room). -/
def updatePlayer (ps : List Player) (pid : String) (f : Player → Player) :
    List Player :=
  ps.map (fun p => if p.id = pid then f p else p)

/-- Invincibility bookkeeping of one player for one tick (gameLoop lines
301-310): decrement the timer of an invincible player; on expiry revert the
status to free and zero the timer. -/
def stepInvincible (p : Player) : Player :=
  if p.IsInvincible then
    if p.invincibleTimer - TickInterval ≤ 0 then
      { p with pstate := PlayerState.free, invincibleTimer := 0 }
    else { p with invincibleTimer := p.invincibleTimer - TickInterval }
  else p

/-- One arrest-pair visit in the gameLoop (lines 316-324): add one tick of
arrest gauge to the thief of the pair and arrest them once the gauge reaches
`ArrestDuration`.  The gauge is never reset here (line 325: cumulative). -/
def touchArrest (p : Player) : Player :=
  { p with arrestGauge := p.arrestGauge + TickInterval,
           pstate := if ArrestDuration ≤ p.arrestGauge + TickInterval then
               PlayerState.arrested
             else p.pstate }

/-- Arrest mechanics of one tick (gameLoop lines 312-325): the pair list is
computed once, then every pair deposits one `touchArrest` on its thief.  The
`chasedThieves` map the Go code builds is never read, so a thief touched by
several police receives several deposits in the same tick. -/
def arrestPhase (ps : List Player) : List Player :=
  (FindArrestPairs ps).foldl
    (fun acc pr => updatePlayer acc pr.2.id touchArrest) ps

/-- Release of every arrested thief (gameLoop lines 334-340). -/
def releaseArrestedThieves (ps : List Player) : List Player :=
  ps.map (fun p =>
    if p.role.isThief && p.IsArrested then p.Release else p)

/-- Deposit of one tick of rescue gauge (gameLoop line 332). -/
def addRescueGauge (p : Player) : Player :=
  { p with rescueGauge := p.rescueGauge + TickInterval }

/-- Reset of a rescuer's gauge after a completed rescue (gameLoop line 341). -/
def zeroRescueGauge (p : Player) : Player :=
  { p with rescueGauge := 0 }

/-- One rescue-candidate visit in the gameLoop (lines 330-343): add one tick
of rescue gauge; if the gauge reaches `RescueDuration`, release every arrested
thief and zero this rescuer's gauge.  The gauge is read back from the updated
list because the Go loop reads it through the candidate's pointer. -/
def rescueTouch (acc : List Player) (cid : String) : List Player :=
  let acc1 := updatePlayer acc cid addRescueGauge
  match acc1.find? (fun p => p.id = cid) with
  | Option.some c =>
      if RescueDuration ≤ c.rescueGauge then
        updatePlayer (releaseArrestedThieves acc1) cid zeroRescueGauge
      else acc1
  | Option.none => acc1

/-- Rescue mechanics of one tick (gameLoop lines 327-343) over the candidate
list computed before the loop. -/
def rescuePhase (ps : List Player) (cands : List Player) : List Player :=
  (cands.map (fun c => c.id)).foldl rescueTouch ps

/-- Rescue-gauge reset of one tick (gameLoop lines 344-349): every free thief
that is not among this tick's rescue candidates has their rescue gauge forced
to zero. -/
def rescueResetPhase (ps : List Player) (rescuingIDs : List String) :
    List Player :=
  ps.map (fun p =>
    if p.role.isThief && p.IsFree && !(rescuingIDs.contains p.id) then
      { p with rescueGauge := 0 }
    else p)

/-- Player-state part of one gameLoop tick (room.go lines 301-349):
invincibility bookkeeping, then arrest mechanics, then rescue mechanics, then
the rescue-gauge reset for non-candidates. -/
def gameLoopTickPlayers (ps : List Player) : List Player :=
  let ps1 := ps.map stepInvincible
  let ps2 := arrestPhase ps1
  let cands := FindJailRescueCandidates ps2 JailX JailY
  let ps3 := rescuePhase ps2 cands
  rescueResetPhase ps3 (cands.map (fun c => c.id))

/-- True when some rescue candidate of this tick completes their gauge during
the tick started from `ps` (their gauge plus one tick reaches
`RescueDuration`), i.e. when the tick performs a jailbreak release. -/
def RescueFires (ps : List Player) : Bool :=
  let ps2 := arrestPhase (ps.map stepInvincible)
  (FindJailRescueCandidates ps2 JailX JailY).any
    (fun c => decide (RescueDuration ≤ c.rescueGauge + TickInterval))

/-- Messages a room broadcasts, reduced to the shape the claims need
(`ws.Message` with types `game_state`, `game_over`, `player_move`). -/
inductive Message where
  | gameState
  | gameOver (winner : WinResult)
  | playerMove (playerID : String) (x y : ℚ)
deriving DecidableEq, Repr

/-- Number of game-over messages in a broadcast log. -/
def gameOverCount (ms : List Message) : Nat :=
  ms.countP (fun m => match m with | Message.gameOver _ => true | _ => false)

/-- Room record (`room.Room`): code, lifecycle state, players (as the ordered
snapshot the game loop iterates), host id, remaining time in seconds, the
stop channel (whether it has been closed, plus a count of close operations to
express "closed exactly once"), and the log of broadcast messages. -/
structure Room where
  code : String
  state : RoomState := RoomState.waiting
  players : List Player := []
  hostID : String := ""
  remainingTime : ℚ := 0
  stopChClosed : Bool := false
  stopChCloseCount : Nat := 0
  broadcasts : List Message := []
deriving DecidableEq, Repr

/-- Constructor `room.NewRoom` (room.go lines 33-40). -/
def NewRoom (code : String) : Room :=
  { code := code }

/-- Method `Room.StopGame` (room.go lines 226-253): a no-op unless the state
is playing; otherwise transition to ended, close the stop channel unless it is
already closed, and broadcast one game-over message. -/
def Room.StopGame (r : Room) (result : WinResult) : Room :=
  if r.state ≠ RoomState.playing then r
  else
    { r with state := RoomState.ended,
             stopChClosed := true,
             stopChCloseCount :=
               if r.stopChClosed then r.stopChCloseCount
               else r.stopChCloseCount + 1,
             broadcasts := r.broadcasts ++ [Message.gameOver result] }

/-- Method `Room.PrepareGame` (room.go lines 196-218): transition to playing,
reset the countdown, install a fresh (open) stop channel, and apply the drawn
spawn positions.  `game.GenerateSpawnPositions` draws random positions, so the
embedding takes the drawn assignment as the parameter `spawnPos`; the map
object generation (also random) does not affect any claim and is omitted. -/
def Room.PrepareGame (r : Room) (spawnPos : String → ℚ × ℚ) : Room :=
  { r with state := RoomState.playing,
           remainingTime := GameDuration,
           stopChClosed := false,
           players := r.players.map
             (fun p => p.SetPosition (spawnPos p.id).1 (spawnPos p.id).2) }

/-- Method `Room.Reset` (room.go lines 184-192): state back to waiting and
`Player.Reset` applied to every player. -/
def Room.Reset (r : Room) : Room :=
  { r with state := RoomState.waiting,
           players := r.players.map Player.Reset }

/-- One full iteration of the gameLoop tick (room.go lines 290-386): decrement
the remaining time, note timer expiry, run the player-state step, broadcast a
game-state snapshot, then stop with a police win if `CheckPoliceWin` holds and
otherwise stop with a thief win if the timer expired.  The timer-expiry branch
uses the raw `timerExpired` flag; `CheckThiefWin` is not consulted. -/
def Room.gameLoopTick (r : Room) : Room :=
  let rt := r.remainingTime - TickInterval
  let timerExpired : Bool := decide (rt ≤ 0)
  let ps := gameLoopTickPlayers r.players
  let r1 := { r with remainingTime := rt, players := ps,
                     broadcasts := r.broadcasts ++ [Message.gameState] }
  if CheckPoliceWin ps then r1.StopGame WinResult.police
  else if timerExpired then r1.StopGame WinResult.thief
  else r1

/-- Arrest event returned by `game.ProcessArrests` (unnamed part_002). -/
structure ArrestEvent where
  policeID : String
  thiefID : String
deriving DecidableEq, Repr

/-- Function `game.ProcessArrests` (unnamed part_002 lines 12-45): compute the
arrest pairs, deduplicate them by thief (keeping the first touching police for
the event), deposit exactly one tick of gauge on each contacted thief, and
arrest those whose gauge reaches `ArrestDuration`.  Returns the updated
players together with the emitted events. -/
def ProcessArrests (players : List Player) (dt : ℚ) :
    List Player × List ArrestEvent :=
  let pairs := FindArrestPairs players
  let contacted : List (String × String) :=
    pairs.foldl
      (fun m pr =>
        if (m.lookup pr.2.id).isSome then m else m ++ [(pr.2.id, pr.1.id)])
      []
  players.foldl
    (fun acc p =>
      if p.role.isThief then
        match contacted.lookup p.id with
        | Option.some copId =>
            let g := p.arrestGauge + dt
            let q := { p with arrestGauge := g,
                              pstate := if ArrestDuration ≤ g then
                                  PlayerState.arrested
                                else p.pstate }
            (acc.1 ++ [q],
             acc.2 ++ (if ArrestDuration ≤ g then
                [{ policeID := copId, thiefID := p.id }] else []))
        | Option.none => (acc.1 ++ [p], acc.2)
      else (acc.1 ++ [p], acc.2))
    ([], [])

/-- Function `game.ClampPosition` (unnamed part_006 lines 6-23): clamp a
position into the map bounds shrunk by the player radius. -/
def ClampPosition (x y : ℚ) : ℚ × ℚ :=
  let minX := PlayerRadius
  let maxX := MapWidth - PlayerRadius
  let minY := PlayerRadius
  let maxY := MapHeight - PlayerRadius
  let cx := if x < minX then minX else if maxX < x then maxX else x
  let cy := if y < minY then minY else if maxY < y then maxY else y
  (cx, cy)

/-- Outcome of a movement request as resolved by
`GameplayHandler.HandlePlayerMove` (unnamed part_009). -/
inductive MoveOutcome where
  | notPlaying
  | speedViolation
  | accepted (p : Player) (broadcast : Message)
deriving DecidableEq, Repr

/-- Elapsed seconds since the last accepted update (part_009 lines 71-76):
the difference to `now`, defaulting to one tick interval when no prior
accepted update exists (`LastMoveTime.IsZero`). -/
def elapsedSinceLastMove (p : Player) (now : ℚ) : ℚ :=
  match p.lastMoveTime with
  | Option.none => TickInterval
  | Option.some t => now - t

/-- Handler `GameplayHandler.HandlePlayerMove` (unnamed part_009 lines
36-98), restricted to a resolved player: clamp the requested position first,
reject when the room is not playing, then reject as a speed violation when the
distance from the player's current position to the clamped target exceeds
`MoveSpeed * elapsed * 1.5`; otherwise overwrite the position and the last
move time and broadcast the move.  The Go code compares
`Distance > maxDist`; for the real square root this holds exactly when
`maxDist < 0` or `maxDist² < DistanceSq`, which is the comparison used
here. -/
def HandlePlayerMove (roomState : RoomState) (p : Player) (now reqX reqY : ℚ) :
    MoveOutcome :=
  let c := ClampPosition reqX reqY
  if roomState ≠ RoomState.playing then MoveOutcome.notPlaying
  else
    let elapsed := elapsedSinceLastMove p now
    let maxDist := MoveSpeed * elapsed * (3 / 2)
    let violation : Bool :=
      decide (maxDist < 0) ||
        decide (maxDist * maxDist < DistanceSq p.x p.y c.1 c.2)
    if violation then MoveOutcome.speedViolation
    else MoveOutcome.accepted
      { p with x := c.1, y := c.2, lastMoveTime := Option.some now }
      (Message.playerMove p.id c.1 c.2)

/-- Index-wise lifting of a relation on players to player lists of equal
length. -/
def Pointwise (R : Player → Player → Prop) (ps qs : List Player) : Prop :=
  ps.length = qs.length ∧
    ∀ i : Nat, ∀ h1 : i < ps.length, ∀ h2 : i < qs.length, R ps[i] qs[i]

theorem Pointwise.of_refl {R : Player → Player → Prop} (h : ∀ p, R p p)
    (ps : List Player) : Pointwise R ps ps :=
  ⟨rfl, fun _ _ _ => h _⟩

theorem Pointwise.comp {R : Player → Player → Prop}
    (htrans : ∀ a b c, R a b → R b c → R a c) {ps qs rs : List Player}
    (h1 : Pointwise R ps qs) (h2 : Pointwise R qs rs) : Pointwise R ps rs := by
  refine ⟨h1.1.trans h2.1, fun i hi1 hi2 => ?_⟩
  have hq : i < qs.length := h1.1 ▸ hi1
  exact htrans _ _ _ (h1.2 i hi1 hq) (h2.2 i hq hi2)

theorem Pointwise.of_map {R : Player → Player → Prop} (f : Player → Player)
    (h : ∀ p, R p (f p)) (ps : List Player) : Pointwise R ps (ps.map f) := by
  refine ⟨(List.length_map ps f).symm, fun i h1 h2 => ?_⟩
  simpa using h ps[i]

theorem Pointwise.of_foldl {R : Player → Player → Prop}
    (hrefl : ∀ p, R p p) (htrans : ∀ a b c, R a b → R b c → R a c)
    {β : Type} (l : List β) (F : List Player → β → List Player)
    (hF : ∀ acc b, Pointwise R acc (F acc b)) (init : List Player) :
    Pointwise R init (l.foldl F init) := by
  induction l generalizing init with
  | nil => exact Pointwise.of_refl hrefl init
  | cons b tl ih =>
      exact Pointwise.comp htrans (hF init b) (ih (F init b))

/-- Relation preserved by every elementary player transformation inside one
gameLoop tick: id, role, position, ready flag and last move time are
untouched, and the arrest gauge never decreases. -/
def TickRel (p q : Player) : Prop :=
  q.id = p.id ∧ q.role = p.role ∧ q.x = p.x ∧ q.y = p.y ∧ q.ready = p.ready ∧
    q.lastMoveTime = p.lastMoveTime ∧ p.arrestGauge ≤ q.arrestGauge

theorem tickRel_refl (p : Player) : TickRel p p :=
  ⟨rfl, rfl, rfl, rfl, rfl, rfl, le_refl _⟩

theorem tickRel_trans (a b c : Player) (h1 : TickRel a b) (h2 : TickRel b c) :
    TickRel a c := by
  obtain ⟨i1, r1, x1, y1, d1, m1, g1⟩ := h1
  obtain ⟨i2, r2, x2, y2, d2, m2, g2⟩ := h2
  exact ⟨i2.trans i1, r2.trans r1, x2.trans x1, y2.trans y1, d2.trans d1,
    m2.trans m1, g1.trans g2⟩

theorem tickInterval_pos : (0 : ℚ) < TickInterval := by norm_num [TickInterval]

theorem tickRel_stepInvincible (p : Player) : TickRel p (stepInvincible p) := by
  unfold stepInvincible
  split_ifs <;> exact ⟨rfl, rfl, rfl, rfl, rfl, rfl, le_refl _⟩

theorem tickRel_touchArrest (p : Player) : TickRel p (touchArrest p) := by
  unfold touchArrest
  exact ⟨rfl, rfl, rfl, rfl, rfl, rfl, by simp; linarith [tickInterval_pos]⟩

theorem tickRel_addRescueGauge (p : Player) : TickRel p (addRescueGauge p) :=
  ⟨rfl, rfl, rfl, rfl, rfl, rfl, le_refl _⟩

theorem tickRel_zeroRescueGauge (p : Player) : TickRel p (zeroRescueGauge p) :=
  ⟨rfl, rfl, rfl, rfl, rfl, rfl, le_refl _⟩

theorem tickRel_release (p : Player) : TickRel p p.Release :=
  ⟨rfl, rfl, rfl, rfl, rfl, rfl, le_refl _⟩

theorem tickRel_updatePlayer (pid : String) (f : Player → Player)
    (hf : ∀ p, TickRel p (f p)) (ps : List Player) :
    Pointwise TickRel ps (updatePlayer ps pid f) := by
  refine Pointwise.of_map _ (fun p => ?_) ps
  by_cases h : p.id = pid
  · simpa [h] using hf p
  · simpa [h] using tickRel_refl p

theorem tickRel_releaseArrestedThieves (ps : List Player) :
    Pointwise TickRel ps (releaseArrestedThieves ps) := by
  refine Pointwise.of_map _ (fun p => ?_) ps
  by_cases h : (p.role.isThief && p.IsArrested) = true
  · simp only [h, if_true]
    exact tickRel_release p
  · simp only [h]
    exact tickRel_refl p

theorem tickRel_rescueTouch (acc : List Player) (cid : String) :
    Pointwise TickRel acc (rescueTouch acc cid) := by
  have hstep1 : Pointwise TickRel acc (updatePlayer acc cid addRescueGauge) :=
    tickRel_updatePlayer cid addRescueGauge tickRel_addRescueGauge acc
  unfold rescueTouch
  cases hfind : (updatePlayer acc cid addRescueGauge).find?
      (fun p => p.id = cid) with
  | none => simpa [hfind] using hstep1
  | some c =>
      simp only [hfind]
      split_ifs with hdur
      · refine Pointwise.comp tickRel_trans hstep1 ?_
        refine Pointwise.comp tickRel_trans (tickRel_releaseArrestedThieves _) ?_
        exact tickRel_updatePlayer cid zeroRescueGauge tickRel_zeroRescueGauge _
      · exact hstep1

theorem tickRel_arrestPhase (ps : List Player) :
    Pointwise TickRel ps (arrestPhase ps) := by
  unfold arrestPhase
  exact Pointwise.of_foldl tickRel_refl tickRel_trans _ _
    (fun acc pr => tickRel_updatePlayer _ _ tickRel_touchArrest acc) ps

theorem tickRel_rescuePhase (ps : List Player) (cands : List Player) :
    Pointwise TickRel ps (rescuePhase ps cands) := by
  unfold rescuePhase
  exact Pointwise.of_foldl tickRel_refl tickRel_trans _ _
    (fun acc cid => tickRel_rescueTouch acc cid) ps

theorem tickRel_rescueResetPhase (ps : List Player) (ids : List String) :
    Pointwise TickRel ps (rescueResetPhase ps ids) := by
  refine Pointwise.of_map _ (fun p => ?_) ps
  by_cases h : (p.role.isThief && p.IsFree && !(ids.contains p.id)) = true
  · simp only [rescueResetPhase, h, if_true]
    exact ⟨rfl, rfl, rfl, rfl, rfl, rfl, le_refl _⟩
  · simp only [h]
    exact tickRel_refl p

theorem tickRel_gameLoopTickPlayers (ps : List Player) :
    Pointwise TickRel ps (gameLoopTickPlayers ps) := by
  unfold gameLoopTickPlayers
  refine Pointwise.comp tickRel_trans
    (Pointwise.of_map _ tickRel_stepInvincible ps) ?_
  refine Pointwise.comp tickRel_trans (tickRel_arrestPhase _) ?_
  exact Pointwise.comp tickRel_trans (tickRel_rescuePhase _ _)
    (tickRel_rescueResetPhase _ _)

theorem gameLoopTickPlayers_length (ps : List Player) :
    (gameLoopTickPlayers ps).length = ps.length :=
  (tickRel_gameLoopTickPlayers ps).1.symm

theorem gameLoopTickPlayers_ids (ps : List Player) :
    (gameLoopTickPlayers ps).map Player.id = ps.map Player.id := by
  obtain ⟨hlen, hrel⟩ := tickRel_gameLoopTickPlayers ps
  apply List.ext_getElem (by simpa using hlen.symm)
  intro i h1 h2
  simp only [List.getElem_map]
  exact (hrel i (by simpa using h2) (by simpa using h1)).1

theorem stepInvincible_id (p : Player) : (stepInvincible p).id = p.id := by
  unfold stepInvincible
  split_ifs <;> rfl

theorem touchArrest_id (p : Player) : (touchArrest p).id = p.id := rfl

theorem addRescueGauge_id (p : Player) : (addRescueGauge p).id = p.id := rfl

theorem zeroRescueGauge_id (p : Player) : (zeroRescueGauge p).id = p.id := rfl

theorem updatePlayer_length (ps : List Player) (pid : String)
    (f : Player → Player) : (updatePlayer ps pid f).length = ps.length :=
  List.length_map ps _

theorem updatePlayer_getElem (ps : List Player) (pid : String)
    (f : Player → Player) (i : Nat) (h : i < ps.length)
    (h' : i < (updatePlayer ps pid f).length) :
    (updatePlayer ps pid f)[i] = if ps[i].id = pid then f ps[i] else ps[i] := by
  simp [updatePlayer]

theorem updatePlayer_ids (ps : List Player) (pid : String)
    (f : Player → Player) (hf : ∀ p, (f p).id = p.id) :
    (updatePlayer ps pid f).map Player.id = ps.map Player.id := by
  unfold updatePlayer
  rw [List.map_map]
  apply List.map_congr_left
  intro p _
  by_cases h : p.id = pid <;> simp [h, hf]

theorem releaseArrestedThieves_length (ps : List Player) :
    (releaseArrestedThieves ps).length = ps.length :=
  List.length_map ps _

theorem releaseArrestedThieves_getElem (ps : List Player) (i : Nat)
    (h : i < ps.length) (h' : i < (releaseArrestedThieves ps).length) :
    (releaseArrestedThieves ps)[i] =
      if ps[i].role.isThief && ps[i].IsArrested then ps[i].Release
      else ps[i] := by
  simp [releaseArrestedThieves]

theorem releaseArrestedThieves_ids (ps : List Player) :
    (releaseArrestedThieves ps).map Player.id = ps.map Player.id := by
  unfold releaseArrestedThieves
  rw [List.map_map]
  apply List.map_congr_left
  intro p _
  simp only [Function.comp_apply]
  split_ifs <;> rfl

theorem find?_getElem_of_nodup (ps : List Player)
    (hnd : (ps.map Player.id).Nodup) (cid : String) (i : Nat)
    (h : i < ps.length) (hid : ps[i].id = cid) :
    ps.find? (fun p => p.id = cid) = Option.some ps[i] := by
  induction ps generalizing i with
  | nil => simp at h
  | cons a tl ih =>
      rcases i with _ | i
      · simp only [List.getElem_cons_zero] at hid
        simp [List.find?, hid]
      · simp only [List.getElem_cons_succ] at hid
        have hlt : i < tl.length := by simpa using h
        have hmem : cid ∈ tl.map Player.id := by
          rw [← hid]
          exact List.mem_map_of_mem _ (List.getElem_mem hlt)
        have hne : ¬(a.id = cid) := by
          intro he
          rw [List.map_cons, List.nodup_cons] at hnd
          exact hnd.1 (he ▸ hmem)
        have hdec : (decide (a.id = cid)) = false := decide_eq_false hne
        rw [List.find?_cons, hdec]
        exact ih (by rw [List.map_cons, List.nodup_cons] at hnd; exact hnd.2)
          i hlt hid

theorem find?_id_eq_none (ps : List Player) (cid : String)
    (h : cid ∉ ps.map Player.id) :
    ps.find? (fun p => p.id = cid) = Option.none := by
  apply List.find?_eq_none.mpr
  intro p hp
  simp only [decide_eq_true_eq]
  intro he
  exact h (he ▸ List.mem_map_of_mem _ hp)

theorem arrestFold_ids (l : List (Player × Player)) (init : List Player) :
    ((l.foldl (fun acc pr => updatePlayer acc pr.2.id touchArrest) init).map
      Player.id) = init.map Player.id := by
  induction l generalizing init with
  | nil => rfl
  | cons pr tl ih =>
      rw [List.foldl_cons, ih, updatePlayer_ids _ _ _ touchArrest_id]

theorem arrestPhase_ids (ps : List Player) :
    (arrestPhase ps).map Player.id = ps.map Player.id :=
  arrestFold_ids (FindArrestPairs ps) ps

theorem stepInvincible_map_ids (ps : List Player) :
    ((ps.map stepInvincible).map Player.id) = ps.map Player.id := by
  rw [List.map_map]
  apply List.map_congr_left
  intro p _
  simp only [Function.comp_apply, stepInvincible_id]

theorem rescueTouch_ids (acc : List Player) (cid : String) :
    (rescueTouch acc cid).map Player.id = acc.map Player.id := by
  unfold rescueTouch
  cases hfind : (updatePlayer acc cid addRescueGauge).find?
      (fun p => p.id = cid) with
  | none => simp only [hfind]; exact updatePlayer_ids _ _ _ addRescueGauge_id
  | some c =>
      simp only [hfind]
      split_ifs
      · rw [updatePlayer_ids _ _ _ zeroRescueGauge_id,
          releaseArrestedThieves_ids, updatePlayer_ids _ _ _ addRescueGauge_id]
      · exact updatePlayer_ids _ _ _ addRescueGauge_id

theorem rescueFold_ids (cids : List String) (acc : List Player) :
    ((cids.foldl rescueTouch acc).map Player.id) = acc.map Player.id := by
  induction cids generalizing acc with
  | nil => rfl
  | cons c tl ih => rw [List.foldl_cons, ih, rescueTouch_ids]

theorem rescueResetPhase_getElem (ps : List Player) (ids : List String)
    (i : Nat) (h : i < ps.length) (h' : i < (rescueResetPhase ps ids).length) :
    (rescueResetPhase ps ids)[i] =
      if ps[i].role.isThief && ps[i].IsFree && !(ids.contains ps[i].id) then
        { ps[i] with rescueGauge := 0 }
      else ps[i] := by
  simp [rescueResetPhase]

theorem ids_eq_getElem {ps qs : List Player}
    (h : ps.map Player.id = qs.map Player.id) (i : Nat) (h1 : i < ps.length)
    (h2 : i < qs.length) : ps[i].id = qs[i].id := by
  have h1' : i < (ps.map Player.id).length := by simpa using h1
  have h2' : i < (qs.map Player.id).length := by simpa using h2
  have := List.getElem_of_eq h h1'
  simpa using this

theorem length_eq_of_ids_eq {ps qs : List Player}
    (h : ps.map Player.id = qs.map Player.id) : ps.length = qs.length := by
  have := congrArg List.length h
  simpa using this

theorem getElem_id_inj (ps : List Player) (hnd : (ps.map Player.id).Nodup)
    (i j : Nat) (hi : i < ps.length) (hj : j < ps.length)
    (he : ps[i].id = ps[j].id) : i = j := by
  have hi' : i < (ps.map Player.id).length := by simpa using hi
  have hj' : j < (ps.map Player.id).length := by simpa using hj
  have : (ps.map Player.id)[i] = (ps.map Player.id)[j] := by simpa using he
  exact (List.Nodup.getElem_inj_iff hnd).mp this

/-- Relation: an arrested player stays arrested. -/
def ArrKeep (p q : Player) : Prop :=
  p.pstate = PlayerState.arrested → q.pstate = PlayerState.arrested

theorem arrKeep_refl (p : Player) : ArrKeep p p := fun h => h

theorem arrKeep_trans (a b c : Player) (h1 : ArrKeep a b) (h2 : ArrKeep b c) :
    ArrKeep a c := fun h => h2 (h1 h)

theorem arrKeep_stepInvincible (p : Player) : ArrKeep p (stepInvincible p) := by
  intro h
  have hni : p.IsInvincible = false := by
    simp [Player.IsInvincible, h]
  simp [stepInvincible, hni, h]

theorem arrKeep_touchArrest (p : Player) : ArrKeep p (touchArrest p) := by
  intro h
  unfold touchArrest
  split_ifs <;> simp [h]

theorem pointwise_updatePlayer {R : Player → Player → Prop}
    (hrefl : ∀ p, R p p) (pid : String) (f : Player → Player)
    (hf : ∀ p, R p (f p)) (ps : List Player) :
    Pointwise R ps (updatePlayer ps pid f) := by
  refine Pointwise.of_map _ (fun p => ?_) ps
  by_cases h : p.id = pid
  · simpa [h] using hf p
  · simpa [h] using hrefl p

theorem arrKeep_arrestPhase (ps : List Player) :
    Pointwise ArrKeep ps (arrestPhase ps) := by
  unfold arrestPhase
  exact Pointwise.of_foldl arrKeep_refl arrKeep_trans _ _
    (fun acc pr => pointwise_updatePlayer arrKeep_refl _ _ arrKeep_touchArrest acc)
    ps

theorem arrKeep_rescueResetPhase (ps : List Player) (ids : List String) :
    Pointwise ArrKeep ps (rescueResetPhase ps ids) := by
  refine Pointwise.of_map _ (fun p => ?_) ps
  intro h
  by_cases hc : (p.role.isThief && p.IsFree && !(ids.contains p.id)) = true
  · simp only [hc, if_true]; exact h
  · simp only [hc]; exact h

/-- No thief in the list is arrested. -/
def NoArrestedThief (ps : List Player) : Prop :=
  ∀ q ∈ ps, q.role.isThief = true → q.pstate ≠ PlayerState.arrested

theorem noArrTh_releaseArrestedThieves (ps : List Player) :
    NoArrestedThief (releaseArrestedThieves ps) := by
  intro q hq ht
  rcases List.mem_map.mp hq with ⟨p, hp, rfl⟩
  by_cases h : (p.role.isThief && p.IsArrested) = true
  · simp [h, Player.Release]
  · rw [Bool.not_eq_true] at h
    simp only [h] at ht ⊢
    simp only [Bool.false_eq_true, if_false] at ht ⊢
    have harr : p.IsArrested = false := by
      cases hb : p.IsArrested
      · rfl
      · rw [ht, hb] at h
        simp at h
    simpa [Player.IsArrested] using harr

theorem noArrTh_map (g : Player → Player)
    (hrole : ∀ p, (g p).role = p.role)
    (hstate : ∀ p, (g p).pstate = p.pstate ∨ (g p).pstate = PlayerState.free)
    (ps : List Player) (h : NoArrestedThief ps) :
    NoArrestedThief (ps.map g) := by
  intro q hq ht
  rcases List.mem_map.mp hq with ⟨p, hp, rfl⟩
  rw [hrole p] at ht
  rcases hstate p with he | he
  · rw [he]
    exact h p hp ht
  · rw [he]
    simp

theorem noArrTh_updatePlayer (ps : List Player) (pid : String)
    (f : Player → Player) (hrole : ∀ p, (f p).role = p.role)
    (hstate : ∀ p, (f p).pstate = p.pstate ∨ (f p).pstate = PlayerState.free)
    (h : NoArrestedThief ps) : NoArrestedThief (updatePlayer ps pid f) := by
  refine noArrTh_map _ ?_ ?_ ps h
  · intro p
    by_cases hc : p.id = pid
    · simp only [hc, if_true]
      exact hrole p
    · simp [hc]
  · intro p
    by_cases hc : p.id = pid
    · simp only [hc, if_true]
      exact hstate p
    · simp [hc]

theorem noArrTh_rescueTouch (acc : List Player) (cid : String)
    (h : NoArrestedThief acc) : NoArrestedThief (rescueTouch acc cid) := by
  have h1 : NoArrestedThief (updatePlayer acc cid addRescueGauge) :=
    noArrTh_updatePlayer acc cid addRescueGauge (fun p => rfl)
      (fun p => Or.inl rfl) h
  unfold rescueTouch
  cases hfind : (updatePlayer acc cid addRescueGauge).find?
      (fun p => p.id = cid) with
  | none => simpa [hfind] using h1
  | some c =>
      simp only [hfind]
      split_ifs
      · exact noArrTh_updatePlayer _ cid zeroRescueGauge (fun p => rfl)
          (fun p => Or.inl rfl) (noArrTh_releaseArrestedThieves _)
      · exact h1

theorem noArrTh_rescueFold (cids : List String) (acc : List Player)
    (h : NoArrestedThief acc) : NoArrestedThief (cids.foldl rescueTouch acc) := by
  induction cids generalizing acc with
  | nil => exact h
  | cons c tl ih => exact ih _ (noArrTh_rescueTouch acc c h)

theorem noArrTh_rescueResetPhase (ps : List Player) (ids : List String)
    (h : NoArrestedThief ps) : NoArrestedThief (rescueResetPhase ps ids) := by
  refine noArrTh_map _ ?_ ?_ ps h
  · intro p
    split_ifs <;> rfl
  · intro p
    split_ifs <;> exact Or.inl rfl

theorem rescueTouch_length (acc : List Player) (cid : String) :
    (rescueTouch acc cid).length = acc.length :=
  length_eq_of_ids_eq (rescueTouch_ids acc cid)

theorem rescueFold_length (cids : List String) (acc : List Player) :
    (cids.foldl rescueTouch acc).length = acc.length :=
  length_eq_of_ids_eq (rescueFold_ids cids acc)

theorem rescueTouch_getElem_id (acc : List Player) (cid : String) (i : Nat)
    (h : i < acc.length) (h' : i < (rescueTouch acc cid).length) :
    (rescueTouch acc cid)[i].id = acc[i].id :=
  ids_eq_getElem (rescueTouch_ids acc cid) i h' h

theorem rescueTouch_entry_ne (acc : List Player) (cid : String) (i : Nat)
    (h : i < acc.length) (h' : i < (rescueTouch acc cid).length)
    (hne : acc[i].id ≠ cid) :
    (rescueTouch acc cid)[i].rescueGauge = acc[i].rescueGauge := by
  have hlen1 : i < (updatePlayer acc cid addRescueGauge).length := by
    rw [updatePlayer_length]; exact h
  have hacc1 : (updatePlayer acc cid addRescueGauge)[i] = acc[i] := by
    rw [updatePlayer_getElem acc cid addRescueGauge i h hlen1, if_neg hne]
  unfold rescueTouch
  cases hfind : (updatePlayer acc cid addRescueGauge).find?
      (fun p => p.id = cid) with
  | none =>
      simp only [hfind]
      rw [hacc1]
  | some c =>
      simp only [hfind]
      split_ifs
      · have hlen2 : i < (releaseArrestedThieves
            (updatePlayer acc cid addRescueGauge)).length := by
          rw [releaseArrestedThieves_length]; exact hlen1
        have hlen3 : i < (updatePlayer (releaseArrestedThieves
            (updatePlayer acc cid addRescueGauge)) cid zeroRescueGauge).length := by
          rw [updatePlayer_length]; exact hlen2
        rw [updatePlayer_getElem _ cid zeroRescueGauge i hlen2 hlen3]
        rw [releaseArrestedThieves_getElem _ i hlen1 hlen2, hacc1]
        rw [if_neg]
        · split_ifs with hrel
          · simp [Player.Release]
          · rfl
        · split_ifs with hrel
          · simpa [Player.Release] using hne
          · exact hne
      · rw [hacc1]

theorem updatePlayer_entry_pstate (ps : List Player) (pid : String)
    (f : Player → Player) (hf : ∀ p, (f p).pstate = p.pstate) (i : Nat)
    (h : i < ps.length) (h' : i < (updatePlayer ps pid f).length) :
    (updatePlayer ps pid f)[i].pstate = ps[i].pstate := by
  rw [updatePlayer_getElem ps pid f i h h']
  split_ifs <;> simp [hf]

theorem rescueTouch_no_fire (acc : List Player) (cid : String)
    (hnd : (acc.map Player.id).Nodup)
    (hno : ∀ i (h : i < acc.length), acc[i].id = cid →
      ¬(RescueDuration ≤ acc[i].rescueGauge + TickInterval)) :
    rescueTouch acc cid = updatePlayer acc cid addRescueGauge := by
  by_cases hmem : cid ∈ acc.map Player.id
  · rcases List.mem_map.mp hmem with ⟨p, hp, hpid⟩
    rcases List.mem_iff_getElem.mp hp with ⟨j, hj, hpj⟩
    have hjid : acc[j].id = cid := by rw [hpj]; exact hpid
    have hj1 : j < (updatePlayer acc cid addRescueGauge).length := by
      rw [updatePlayer_length]; exact hj
    have hupd : (updatePlayer acc cid addRescueGauge)[j] =
        addRescueGauge acc[j] := by
      rw [updatePlayer_getElem acc cid addRescueGauge j hj hj1, if_pos hjid]
    have hfind := find?_getElem_of_nodup (updatePlayer acc cid addRescueGauge)
      (by rw [updatePlayer_ids _ _ _ addRescueGauge_id]; exact hnd) cid j hj1
      (by rw [hupd, addRescueGauge_id]; exact hjid)
    unfold rescueTouch
    simp only [hfind]
    have : ¬(RescueDuration ≤
        (updatePlayer acc cid addRescueGauge)[j].rescueGauge) := by
      rw [hupd]
      exact hno j hj hjid
    rw [if_neg this]
  · have hfind := find?_id_eq_none (updatePlayer acc cid addRescueGauge) cid
      (by rw [updatePlayer_ids _ _ _ addRescueGauge_id]; exact hmem)
    unfold rescueTouch
    simp only [hfind]

theorem rescueTouch_fire (acc : List Player) (cid : String)
    (hnd : (acc.map Player.id).Nodup) (j : Nat) (hj : j < acc.length)
    (hjid : acc[j].id = cid)
    (hfire : RescueDuration ≤ acc[j].rescueGauge + TickInterval) :
    rescueTouch acc cid =
      updatePlayer (releaseArrestedThieves
        (updatePlayer acc cid addRescueGauge)) cid zeroRescueGauge := by
  have hj1 : j < (updatePlayer acc cid addRescueGauge).length := by
    rw [updatePlayer_length]; exact hj
  have hupd : (updatePlayer acc cid addRescueGauge)[j] =
      addRescueGauge acc[j] := by
    rw [updatePlayer_getElem acc cid addRescueGauge j hj hj1, if_pos hjid]
  have hfind := find?_getElem_of_nodup (updatePlayer acc cid addRescueGauge)
    (by rw [updatePlayer_ids _ _ _ addRescueGauge_id]; exact hnd) cid j hj1
    (by rw [hupd, addRescueGauge_id]; exact hjid)
  unfold rescueTouch
  simp only [hfind]
  have : RescueDuration ≤
      (updatePlayer acc cid addRescueGauge)[j].rescueGauge := by
    rw [hupd]
    exact hfire
  rw [if_pos this]

theorem rescueFold_no_fire (cids : List String) (hcnd : cids.Nodup) :
    ∀ (acc : List Player), (acc.map Player.id).Nodup →
    (∀ i (h : i < acc.length), acc[i].id ∈ cids →
      ¬(RescueDuration ≤ acc[i].rescueGauge + TickInterval)) →
    ∀ i (h1 : i < (cids.foldl rescueTouch acc).length) (h2 : i < acc.length),
      (cids.foldl rescueTouch acc)[i].pstate = acc[i].pstate := by
  induction cids with
  | nil => intro acc _ _ i h1 h2; rfl
  | cons c tl ih =>
      intro acc hnd hno i h1 h2
      have hstep : rescueTouch acc c = updatePlayer acc c addRescueGauge :=
        rescueTouch_no_fire acc c hnd
          (fun i h hic => hno i h (by rw [hic]; exact List.mem_cons_self c tl))
      have heq : List.foldl rescueTouch acc (c :: tl) =
          List.foldl rescueTouch (updatePlayer acc c addRescueGauge) tl := by
        rw [List.foldl_cons, hstep]
      have h1a : i < (List.foldl rescueTouch
          (updatePlayer acc c addRescueGauge) tl).length := by
        rw [← heq]; exact h1
      rw [List.getElem_of_eq heq h1]
      have hcnd' : tl.Nodup := (List.nodup_cons.mp hcnd).2
      have hcnotin : c ∉ tl := (List.nodup_cons.mp hcnd).1
      have hnd' : ((updatePlayer acc c addRescueGauge).map Player.id).Nodup := by
        rw [updatePlayer_ids _ _ _ addRescueGauge_id]; exact hnd
      have h2' : i < (updatePlayer acc c addRescueGauge).length := by
        rw [updatePlayer_length]; exact h2
      have hno' : ∀ k (hk : k < (updatePlayer acc c addRescueGauge).length),
          (updatePlayer acc c addRescueGauge)[k].id ∈ tl →
          ¬(RescueDuration ≤
            (updatePlayer acc c addRescueGauge)[k].rescueGauge +
              TickInterval) := by
        intro k hk hkin
        have hk0 : k < acc.length := by
          rw [updatePlayer_length] at hk; exact hk
        rw [updatePlayer_getElem acc c addRescueGauge k hk0 hk] at hkin ⊢
        by_cases hkc : acc[k].id = c
        · rw [if_pos hkc] at hkin
          rw [addRescueGauge_id, hkc] at hkin
          exact absurd hkin hcnotin
        · rw [if_neg hkc] at hkin ⊢
          exact hno k hk0 (List.mem_cons_of_mem c hkin)
      rw [ih hcnd' _ hnd' hno' i h1a h2']
      exact updatePlayer_entry_pstate acc c addRescueGauge (fun p => rfl) i h2 h2'

theorem rescueFold_gauge_of_not_mem (cids : List String) :
    ∀ (acc : List Player) (i : Nat) (h1 : i < acc.length)
      (h2 : i < (cids.foldl rescueTouch acc).length),
      acc[i].id ∉ cids →
      (cids.foldl rescueTouch acc)[i].rescueGauge = acc[i].rescueGauge := by
  induction cids with
  | nil => intro acc i h1 h2 _; rfl
  | cons c tl ih =>
      intro acc i h1 h2 hnotin
      have hne : acc[i].id ≠ c := fun he => hnotin (by rw [he]; exact List.mem_cons_self c tl)
      have h1' : i < (rescueTouch acc c).length := by
        rw [rescueTouch_length]; exact h1
      have heq : List.foldl rescueTouch acc (c :: tl) =
          List.foldl rescueTouch (rescueTouch acc c) tl := List.foldl_cons ..
      have h2a : i < (List.foldl rescueTouch (rescueTouch acc c) tl).length := by
        rw [← heq]; exact h2
      have hid' : (rescueTouch acc c)[i].id = acc[i].id :=
        rescueTouch_getElem_id acc c i h1 h1'
      have hnotin' : (rescueTouch acc c)[i].id ∉ tl := by
        rw [hid']
        exact fun hmem => hnotin (List.mem_cons_of_mem c hmem)
      rw [List.getElem_of_eq heq h2]
      rw [ih (rescueTouch acc c) i h1' h2a hnotin']
      exact rescueTouch_entry_ne acc c i h1 h1' hne

theorem rescueFold_fire (cids : List String) :
    ∀ (hcnd : cids.Nodup) (acc : List Player),
      (acc.map Player.id).Nodup →
    ∀ (cid : String) (j : Nat) (hj : j < acc.length),
      acc[j].id = cid → cid ∈ cids →
      RescueDuration ≤ acc[j].rescueGauge + TickInterval →
      NoArrestedThief (cids.foldl rescueTouch acc) ∧
      ∀ h1 : j < (cids.foldl rescueTouch acc).length,
        (cids.foldl rescueTouch acc)[j].rescueGauge = 0 := by
  induction cids with
  | nil =>
      intro _ acc _ cid j hj _ hin _
      exact absurd hin (List.not_mem_nil cid)
  | cons c tl ih =>
      intro hcnd acc hnd cid j hj hjid hin hfire
      by_cases hc : c = cid
      · subst hc
        have hstep := rescueTouch_fire acc c hnd j hj hjid hfire
        have heq : List.foldl rescueTouch acc (c :: tl) =
            List.foldl rescueTouch
              (updatePlayer (releaseArrestedThieves
                (updatePlayer acc c addRescueGauge)) c zeroRescueGauge) tl := by
          rw [List.foldl_cons, hstep]
        have hlen1 : j < (updatePlayer acc c addRescueGauge).length := by
          rw [updatePlayer_length]; exact hj
        have hlen2 : j < (releaseArrestedThieves
            (updatePlayer acc c addRescueGauge)).length := by
          rw [releaseArrestedThieves_length]; exact hlen1
        have hlenr : j < (updatePlayer (releaseArrestedThieves
            (updatePlayer acc c addRescueGauge)) c zeroRescueGauge).length := by
          rw [updatePlayer_length]; exact hlen2
        have hidseq : (updatePlayer (releaseArrestedThieves
            (updatePlayer acc c addRescueGauge)) c zeroRescueGauge).map
              Player.id = acc.map Player.id := by
          rw [updatePlayer_ids _ _ _ zeroRescueGauge_id,
            releaseArrestedThieves_ids, updatePlayer_ids _ _ _ addRescueGauge_id]
        have hnoarr : NoArrestedThief (updatePlayer (releaseArrestedThieves
            (updatePlayer acc c addRescueGauge)) c zeroRescueGauge) :=
          noArrTh_updatePlayer _ c zeroRescueGauge (fun p => rfl)
            (fun p => Or.inl rfl) (noArrTh_releaseArrestedThieves _)
        constructor
        · rw [heq]
          exact noArrTh_rescueFold tl _ hnoarr
        · intro h1
          have hid2 : (releaseArrestedThieves
              (updatePlayer acc c addRescueGauge))[j].id = c := by
            have e : (releaseArrestedThieves
                (updatePlayer acc c addRescueGauge)).map Player.id =
                acc.map Player.id := by
              rw [releaseArrestedThieves_ids,
                updatePlayer_ids _ _ _ addRescueGauge_id]
            rw [ids_eq_getElem e j hlen2 hj]
            exact hjid
          have hgr : ((updatePlayer (releaseArrestedThieves
              (updatePlayer acc c addRescueGauge)) c
                zeroRescueGauge)[j]).rescueGauge = 0 := by
            rw [updatePlayer_getElem _ c zeroRescueGauge j hlen2 hlenr,
              if_pos hid2]
            rfl
          have hcnotin : c ∉ tl := (List.nodup_cons.mp hcnd).1
          have hjin : (updatePlayer (releaseArrestedThieves
              (updatePlayer acc c addRescueGauge)) c zeroRescueGauge)[j].id
                ∉ tl := by
            rw [ids_eq_getElem hidseq j hlenr hj, hjid]
            exact hcnotin
          have h1' : j < (List.foldl rescueTouch
              (updatePlayer (releaseArrestedThieves
                (updatePlayer acc c addRescueGauge)) c zeroRescueGauge)
              tl).length := by
            rw [← heq]; exact h1
          rw [List.getElem_of_eq heq h1,
            rescueFold_gauge_of_not_mem tl _ j hlenr h1' hjin, hgr]
      · have hin' : cid ∈ tl := by
          rcases List.mem_cons.mp hin with he | hmem
          · exact absurd he.symm hc
          · exact hmem
        have heq : List.foldl rescueTouch acc (c :: tl) =
            List.foldl rescueTouch (rescueTouch acc c) tl := List.foldl_cons ..
        have hnd' : ((rescueTouch acc c).map Player.id).Nodup := by
          rw [rescueTouch_ids]; exact hnd
        have hj' : j < (rescueTouch acc c).length := by
          rw [rescueTouch_length]; exact hj
        have hid' : (rescueTouch acc c)[j].id = cid := by
          rw [rescueTouch_getElem_id acc c j hj hj']; exact hjid
        have hne : acc[j].id ≠ c := by
          rw [hjid]; exact fun he => hc he.symm
        have hg' : (rescueTouch acc c)[j].rescueGauge = acc[j].rescueGauge :=
          rescueTouch_entry_ne acc c j hj hj' hne
        have hfire' : RescueDuration ≤
            (rescueTouch acc c)[j].rescueGauge + TickInterval := by
          rw [hg']; exact hfire
        have hrec := ih (List.nodup_cons.mp hcnd).2 (rescueTouch acc c) hnd'
          cid j hj' hid' hin' hfire'
        constructor
        · rw [heq]
          exact hrec.1
        · intro h1
          rw [List.getElem_of_eq heq h1]
          exact hrec.2 (by rw [← heq]; exact h1)

theorem no_fire_of_rescueFires_false (ps : List Player)
    (hnf : RescueFires ps = false) :
    ∀ c ∈ FindJailRescueCandidates (arrestPhase (ps.map stepInvincible))
      JailX JailY, ¬(RescueDuration ≤ c.rescueGauge + TickInterval) := by
  intro c hc
  unfold RescueFires at hnf
  simp only [List.any_eq_false, decide_eq_true_eq] at hnf
  exact hnf c hc

theorem cands_sublist (ps2 : List Player) (jx jy : ℚ) :
    (FindJailRescueCandidates ps2 jx jy).Sublist ps2 :=
  List.filter_sublist ps2

theorem cands_ids_nodup (ps2 : List Player)
    (hnd2 : (ps2.map Player.id).Nodup) (jx jy : ℚ) :
    ((FindJailRescueCandidates ps2 jx jy).map Player.id).Nodup :=
  hnd2.sublist ((cands_sublist ps2 jx jy).map Player.id)

theorem arrKeep_arrestFold (l : List (Player × Player)) (acc : List Player) :
    Pointwise ArrKeep acc
      (l.foldl (fun a pr => updatePlayer a pr.2.id touchArrest) acc) :=
  Pointwise.of_foldl arrKeep_refl arrKeep_trans _ _
    (fun a pr => pointwise_updatePlayer arrKeep_refl _ _ arrKeep_touchArrest a)
    acc

theorem arrestFold_length (l : List (Player × Player)) (acc : List Player) :
    (l.foldl (fun a pr => updatePlayer a pr.2.id touchArrest) acc).length =
      acc.length :=
  (arrKeep_arrestFold l acc).1.symm

theorem touchArrest_arrests (p : Player)
    (hgauge : ArrestDuration ≤ p.arrestGauge) :
    (touchArrest p).pstate = PlayerState.arrested := by
  unfold touchArrest
  have : ArrestDuration ≤ p.arrestGauge + TickInterval := by
    linarith [tickInterval_pos]
  simp [this]

theorem arrestFold_gauge_mono (l : List (Player × Player)) (acc : List Player)
    (i : Nat) (h1 : i < acc.length)
    (h2 : i < (l.foldl (fun a pr => updatePlayer a pr.2.id touchArrest)
      acc).length) :
    acc[i].arrestGauge ≤
      (l.foldl (fun a pr => updatePlayer a pr.2.id touchArrest)
        acc)[i].arrestGauge := by
  have := Pointwise.of_foldl tickRel_refl tickRel_trans l
    (fun a pr => updatePlayer a pr.2.id touchArrest)
    (fun a pr => tickRel_updatePlayer _ _ tickRel_touchArrest a) acc
  exact (this.2 i h1 h2).2.2.2.2.2.2

theorem arrestFold_arrests (l : List (Player × Player)) :
    ∀ (acc : List Player) (i : Nat) (h1 : i < acc.length)
      (h2 : i < (l.foldl (fun a pr => updatePlayer a pr.2.id touchArrest)
        acc).length),
      ArrestDuration ≤ acc[i].arrestGauge →
      (∃ pr ∈ l, pr.2.id = acc[i].id) →
      (l.foldl (fun a pr => updatePlayer a pr.2.id touchArrest)
        acc)[i].pstate = PlayerState.arrested := by
  induction l with
  | nil =>
      intro acc i h1 h2 _ hex
      rcases hex with ⟨pr, hpr, _⟩
      exact absurd hpr (List.not_mem_nil pr)
  | cons pr0 tl ih =>
      intro acc i h1 h2 hgauge hex
      have heq : List.foldl (fun a pr => updatePlayer a pr.2.id touchArrest)
          acc (pr0 :: tl) =
          List.foldl (fun a pr => updatePlayer a pr.2.id touchArrest)
            (updatePlayer acc pr0.2.id touchArrest) tl := List.foldl_cons ..
      have hlen' : i < (updatePlayer acc pr0.2.id touchArrest).length := by
        rw [updatePlayer_length]; exact h1
      have h2' : i < (List.foldl (fun a pr => updatePlayer a pr.2.id
          touchArrest) (updatePlayer acc pr0.2.id touchArrest) tl).length := by
        rw [← heq]; exact h2
      rw [List.getElem_of_eq heq h2]
      by_cases hid : acc[i].id = pr0.2.id
      · have hentry : (updatePlayer acc pr0.2.id touchArrest)[i] =
            touchArrest acc[i] := by
          rw [updatePlayer_getElem acc pr0.2.id touchArrest i h1 hlen',
            if_pos hid]
        have harr : (updatePlayer acc pr0.2.id touchArrest)[i].pstate =
            PlayerState.arrested := by
          rw [hentry]
          exact touchArrest_arrests acc[i] hgauge
        exact ((arrKeep_arrestFold tl _).2 i hlen' h2') harr
      · have hentry : (updatePlayer acc pr0.2.id touchArrest)[i] = acc[i] := by
          rw [updatePlayer_getElem acc pr0.2.id touchArrest i h1 hlen',
            if_neg hid]
        rcases hex with ⟨pr, hpr, hprid⟩
        rcases List.mem_cons.mp hpr with he | hmem
        · rw [he] at hprid
          exact absurd hprid.symm hid
        · refine ih _ i hlen' h2' ?_ ?_
          · rw [hentry]; exact hgauge
          · exact ⟨pr, hmem, by rw [hentry]; exact hprid⟩

theorem mem_findArrestPairs (ps : List Player) (j i : Nat)
    (hj : j < ps.length) (hi : i < ps.length)
    (hpolice : ps[j].role = Role.police)
    (hthief : ps[i].role = Role.thief)
    (hfree : ps[i].pstate = PlayerState.free)
    (hrange : InArrestRange ps[j] ps[i] = true) :
    (ps[j], ps[i]) ∈ FindArrestPairs ps := by
  unfold FindArrestPairs
  rw [List.mem_flatMap]
  refine ⟨ps[j], ?_, ?_⟩
  · rw [List.mem_filter]
    exact ⟨List.getElem_mem hj, by rw [hpolice]; rfl⟩
  · rw [List.mem_map]
    refine ⟨ps[i], ?_, rfl⟩
    rw [List.mem_filter, List.mem_filter]
    refine ⟨⟨List.getElem_mem hi, ?_⟩, hrange⟩
    rw [Bool.and_eq_true]
    constructor
    · rw [hthief]; rfl
    · rw [Player.IsFree, hfree]
      rfl

theorem arrestPhase_length (ps : List Player) :
    (arrestPhase ps).length = ps.length :=
  arrestFold_length (FindArrestPairs ps) ps

theorem rescuePhase_length (ps : List Player) (cands : List Player) :
    (rescuePhase ps cands).length = ps.length := by
  unfold rescuePhase
  exact rescueFold_length _ _

theorem rescueResetPhase_length (ps : List Player) (ids : List String) :
    (rescueResetPhase ps ids).length = ps.length :=
  List.length_map ps _

theorem rescueResetPhase_entry_pstate (ps : List Player) (ids : List String)
    (i : Nat) (h : i < ps.length) (h' : i < (rescueResetPhase ps ids).length) :
    (rescueResetPhase ps ids)[i].pstate = ps[i].pstate := by
  rw [rescueResetPhase_getElem ps ids i h h']
  split_ifs <;> rfl

theorem rescueResetPhase_entry_gauge (ps : List Player) (ids : List String)
    (i : Nat) (h : i < ps.length) (h' : i < (rescueResetPhase ps ids).length) :
    (rescueResetPhase ps ids)[i].rescueGauge = ps[i].rescueGauge ∨
      (rescueResetPhase ps ids)[i].rescueGauge = 0 := by
  rw [rescueResetPhase_getElem ps ids i h h']
  split_ifs
  · exact Or.inr rfl
  · exact Or.inl rfl

theorem cand_eq_getElem (ps2 : List Player)
    (hnd2 : (ps2.map Player.id).Nodup) (jx jy : ℚ) (c : Player)
    (hc : c ∈ FindJailRescueCandidates ps2 jx jy) (k : Nat)
    (hk : k < ps2.length) (hkid : ps2[k].id = c.id) : ps2[k] = c := by
  have hcmem : c ∈ ps2 := (List.mem_filter.mp hc).1
  rcases List.mem_iff_getElem.mp hcmem with ⟨m, hm, hcm⟩
  have hkm : k = m := getElem_id_inj ps2 hnd2 k m hk hm (by rw [hkid, ← hcm])
  subst hkm
  exact hcm

theorem tick_arrested_of_no_fire (ps : List Player)
    (hnd : (ps.map Player.id).Nodup) (hnf : RescueFires ps = false)
    (i : Nat) (h1 : i < ps.length) (h2 : i < (gameLoopTickPlayers ps).length)
    (harr : ps[i].pstate = PlayerState.arrested) :
    (gameLoopTickPlayers ps)[i].pstate = PlayerState.arrested := by
  have hl1 : (ps.map stepInvincible).length = ps.length := List.length_map ps _
  have hl2 : (arrestPhase (ps.map stepInvincible)).length = ps.length := by
    rw [arrestPhase_length, hl1]
  have hi1 : i < (ps.map stepInvincible).length := by rw [hl1]; exact h1
  have hi2 : i < (arrestPhase (ps.map stepInvincible)).length := by
    rw [hl2]; exact h1
  have hids2 : (arrestPhase (ps.map stepInvincible)).map Player.id =
      ps.map Player.id := by
    rw [arrestPhase_ids, stepInvincible_map_ids]
  have hnd2 : ((arrestPhase (ps.map stepInvincible)).map Player.id).Nodup := by
    rw [hids2]; exact hnd
  have hstep1 : (ps.map stepInvincible)[i].pstate = PlayerState.arrested :=
    (Pointwise.of_map stepInvincible arrKeep_stepInvincible ps).2 i h1 hi1 harr
  have hstep2 : (arrestPhase (ps.map stepInvincible))[i].pstate =
      PlayerState.arrested :=
    ((arrKeep_arrestPhase (ps.map stepInvincible)).2 i hi1 hi2) hstep1
  have hcnd : (((FindJailRescueCandidates (arrestPhase
      (ps.map stepInvincible)) JailX JailY).map
        (fun c => c.id)) : List String).Nodup := by
    have := cands_ids_nodup (arrestPhase (ps.map stepInvincible)) hnd2
      JailX JailY
    simpa [Function.comp] using this
  have hno : ∀ k (hk : k < (arrestPhase (ps.map stepInvincible)).length),
      (arrestPhase (ps.map stepInvincible))[k].id ∈
        (FindJailRescueCandidates (arrestPhase (ps.map stepInvincible))
          JailX JailY).map (fun c => c.id) →
      ¬(RescueDuration ≤ (arrestPhase
          (ps.map stepInvincible))[k].rescueGauge + TickInterval) := by
    intro k hk hkin
    rcases List.mem_map.mp hkin with ⟨c, hc, hcid⟩
    have hck : (arrestPhase (ps.map stepInvincible))[k] = c :=
      cand_eq_getElem _ hnd2 JailX JailY c hc k hk (by rw [hcid])
    rw [hck]
    exact no_fire_of_rescueFires_false ps hnf c hc
  have hi3 : i < ((((FindJailRescueCandidates (arrestPhase
      (ps.map stepInvincible)) JailX JailY).map (fun c => c.id))).foldl
        rescueTouch (arrestPhase (ps.map stepInvincible))).length := by
    rw [rescueFold_length, hl2]; exact h1
  have hstep3 := rescueFold_no_fire _ hcnd (arrestPhase
    (ps.map stepInvincible)) hnd2 hno i hi3 hi2
  have hmain : gameLoopTickPlayers ps = rescueResetPhase
      ((((FindJailRescueCandidates (arrestPhase (ps.map stepInvincible))
        JailX JailY).map (fun c => c.id))).foldl rescueTouch
          (arrestPhase (ps.map stepInvincible)))
      ((FindJailRescueCandidates (arrestPhase (ps.map stepInvincible))
        JailX JailY).map (fun c => c.id)) := rfl
  have hi4 : i < (rescueResetPhase
      ((((FindJailRescueCandidates (arrestPhase (ps.map stepInvincible))
        JailX JailY).map (fun c => c.id))).foldl rescueTouch
          (arrestPhase (ps.map stepInvincible)))
      ((FindJailRescueCandidates (arrestPhase (ps.map stepInvincible))
        JailX JailY).map (fun c => c.id))).length := by
    rw [rescueResetPhase_length]; exact hi3
  rw [List.getElem_of_eq hmain h2,
    rescueResetPhase_entry_pstate _ _ i hi3 hi4, hstep3]
  exact hstep2

theorem tick_fire (ps : List Player) (hnd : (ps.map Player.id).Nodup)
    (c : Player)
    (hc : c ∈ FindJailRescueCandidates (arrestPhase (ps.map stepInvincible))
      JailX JailY)
    (hfire : RescueDuration ≤ c.rescueGauge + TickInterval) :
    NoArrestedThief (gameLoopTickPlayers ps) ∧
    ∀ i (h1 : i < (gameLoopTickPlayers ps).length),
      (gameLoopTickPlayers ps)[i].id = c.id →
      (gameLoopTickPlayers ps)[i].rescueGauge = 0 := by
  have hids2 : (arrestPhase (ps.map stepInvincible)).map Player.id =
      ps.map Player.id := by
    rw [arrestPhase_ids, stepInvincible_map_ids]
  have hnd2 : ((arrestPhase (ps.map stepInvincible)).map Player.id).Nodup := by
    rw [hids2]; exact hnd
  have hcnd : ((FindJailRescueCandidates (arrestPhase
      (ps.map stepInvincible)) JailX JailY).map (fun c => c.id)).Nodup := by
    have := cands_ids_nodup (arrestPhase (ps.map stepInvincible)) hnd2
      JailX JailY
    simpa [Function.comp] using this
  have hcmem : c ∈ arrestPhase (ps.map stepInvincible) :=
    (List.mem_filter.mp hc).1
  rcases List.mem_iff_getElem.mp hcmem with ⟨j, hj, hcj⟩
  have hjid : (arrestPhase (ps.map stepInvincible))[j].id = c.id := by
    rw [hcj]
  have hin : c.id ∈ (FindJailRescueCandidates (arrestPhase
      (ps.map stepInvincible)) JailX JailY).map (fun c => c.id) :=
    List.mem_map_of_mem _ hc
  have hfirej : RescueDuration ≤
      (arrestPhase (ps.map stepInvincible))[j].rescueGauge + TickInterval := by
    rw [hcj]; exact hfire
  have hfold := rescueFold_fire _ hcnd (arrestPhase (ps.map stepInvincible))
    hnd2 c.id j hj hjid hin hfirej
  have hmain : gameLoopTickPlayers ps = rescueResetPhase
      ((((FindJailRescueCandidates (arrestPhase (ps.map stepInvincible))
        JailX JailY).map (fun c => c.id))).foldl rescueTouch
          (arrestPhase (ps.map stepInvincible)))
      ((FindJailRescueCandidates (arrestPhase (ps.map stepInvincible))
        JailX JailY).map (fun c => c.id)) := rfl
  have hlfold : ((((FindJailRescueCandidates (arrestPhase
      (ps.map stepInvincible)) JailX JailY).map (fun c => c.id))).foldl
        rescueTouch (arrestPhase (ps.map stepInvincible))).length =
      ps.length := by
    rw [rescueFold_length, arrestPhase_length, List.length_map]
  constructor
  · rw [hmain]
    exact noArrTh_rescueResetPhase _ _ hfold.1
  · intro i h1 hid
    have hips : i < ps.length := by
      rw [← gameLoopTickPlayers_length ps]
      exact h1
    have hi2 : i < (arrestPhase (ps.map stepInvincible)).length := by
      rw [arrestPhase_length, List.length_map]; exact hips
    have hidtick : (gameLoopTickPlayers ps)[i].id =
        (arrestPhase (ps.map stepInvincible))[i].id := by
      apply ids_eq_getElem
      rw [gameLoopTickPlayers_ids, hids2]
    have hij : i = j := by
      apply getElem_id_inj _ hnd2 i j hi2 hj
      rw [← hidtick, hid, ← hjid]
    subst hij
    have hifold : i < ((((FindJailRescueCandidates (arrestPhase
        (ps.map stepInvincible)) JailX JailY).map (fun c => c.id))).foldl
          rescueTouch (arrestPhase (ps.map stepInvincible))).length := by
      rw [hlfold]; exact hips
    have hzero := hfold.2 hifold
    have hi4 : i < (rescueResetPhase
        ((((FindJailRescueCandidates (arrestPhase (ps.map stepInvincible))
          JailX JailY).map (fun c => c.id))).foldl rescueTouch
            (arrestPhase (ps.map stepInvincible)))
        ((FindJailRescueCandidates (arrestPhase (ps.map stepInvincible))
          JailX JailY).map (fun c => c.id))).length := by
      rw [rescueResetPhase_length, hlfold]; exact hips
    rw [List.getElem_of_eq hmain h1]
    rcases rescueResetPhase_entry_gauge _ _ i hifold hi4 with he | he
    · rw [he, hzero]
    · rw [he]

theorem iterate_tick_length (n : Nat) (ps : List Player) :
    (gameLoopTickPlayers^[n] ps).length = ps.length := by
  induction n generalizing ps with
  | zero => rfl
  | succ n ih =>
      rw [Function.iterate_succ_apply, ih, gameLoopTickPlayers_length]

theorem iterate_tick_ids (n : Nat) (ps : List Player) :
    (gameLoopTickPlayers^[n] ps).map Player.id = ps.map Player.id := by
  induction n generalizing ps with
  | zero => rfl
  | succ n ih =>
      rw [Function.iterate_succ_apply, ih, gameLoopTickPlayers_ids]

theorem tick_gauge_mono (ps : List Player) (i : Nat) (h1 : i < ps.length)
    (h2 : i < (gameLoopTickPlayers ps).length) :
    ps[i].arrestGauge ≤ (gameLoopTickPlayers ps)[i].arrestGauge :=
  ((tickRel_gameLoopTickPlayers ps).2 i h1 h2).2.2.2.2.2.2

/-- C4: over any number of game-loop ticks, a player's arrest gauge never
decreases, and a detained (arrested) player only ever reverts to non-arrested
status if some intermediate tick completed a rescue (`RescueFires`).  The
gauge is never reset inside the tick loop; see also C10. -/
theorem C4_capture_monotonic (ps : List Player) (n : Nat)
    (hnd : (ps.map Player.id).Nodup) (i : Nat) (h1 : i < ps.length)
    (h2 : i < (gameLoopTickPlayers^[n] ps).length) :
    ps[i].arrestGauge ≤ (gameLoopTickPlayers^[n] ps)[i].arrestGauge ∧
    (ps[i].pstate = PlayerState.arrested →
      (gameLoopTickPlayers^[n] ps)[i].pstate ≠ PlayerState.arrested →
      ∃ k < n, RescueFires (gameLoopTickPlayers^[k] ps) = true) := by
  induction n with
  | zero =>
      refine ⟨le_refl _, fun ha hna => absurd ha hna⟩
  | succ n ih =>
      have hlen_n : i < (gameLoopTickPlayers^[n] ps).length := by
        rw [iterate_tick_length]; exact h1
      have hlen_n1 : i < (gameLoopTickPlayers
          (gameLoopTickPlayers^[n] ps)).length := by
        rw [gameLoopTickPlayers_length, iterate_tick_length]; exact h1
      have heq : gameLoopTickPlayers^[n + 1] ps =
          gameLoopTickPlayers (gameLoopTickPlayers^[n] ps) :=
        Function.iterate_succ_apply' gameLoopTickPlayers n ps
      have hih := ih hlen_n
      constructor
      · calc ps[i].arrestGauge
            ≤ (gameLoopTickPlayers^[n] ps)[i].arrestGauge := hih.1
          _ ≤ (gameLoopTickPlayers (gameLoopTickPlayers^[n] ps))[i].arrestGauge :=
              tick_gauge_mono _ i hlen_n hlen_n1
          _ = (gameLoopTickPlayers^[n + 1] ps)[i].arrestGauge := by
              rw [List.getElem_of_eq heq.symm hlen_n1]
      · intro ha hna
        by_cases harrn : (gameLoopTickPlayers^[n] ps)[i].pstate =
            PlayerState.arrested
        · cases hfb : RescueFires (gameLoopTickPlayers^[n] ps) with
          | true => exact ⟨n, Nat.lt_succ_self n, hfb⟩
          | false =>
              exfalso
              apply hna
              have hndn : ((gameLoopTickPlayers^[n] ps).map Player.id).Nodup := by
                rw [iterate_tick_ids]; exact hnd
              have := tick_arrested_of_no_fire (gameLoopTickPlayers^[n] ps)
                hndn hfb i hlen_n hlen_n1 harrn
              rw [List.getElem_of_eq heq h2]
              exact this
        · rcases hih.2 ha harrn with ⟨k, hk, hfk⟩
          exact ⟨k, Nat.lt_succ_of_lt hk, hfk⟩

/-- C7: `StopGame` is idempotent.  When the room is not in the playing state
it is a no-op (nothing changes, no broadcast, the stop channel is untouched);
a first call from the playing state transitions to ended, closes the stop
channel exactly once, and broadcasts exactly one game-over message, and a
second call is then a no-op, so two consecutive calls yield exactly one
ended transition and one game-over broadcast. -/
theorem C7_stopGame_idempotent (r : Room) (w w' : WinResult) :
    (r.state ≠ RoomState.playing → r.StopGame w = r) ∧
    (r.state = RoomState.playing →
      (r.StopGame w).state = RoomState.ended ∧
      (r.StopGame w).stopChClosed = true ∧
      (r.stopChClosed = false →
        (r.StopGame w).stopChCloseCount = r.stopChCloseCount + 1) ∧
      (r.StopGame w).broadcasts = r.broadcasts ++ [Message.gameOver w] ∧
      gameOverCount (r.StopGame w).broadcasts =
        gameOverCount r.broadcasts + 1) ∧
    ((r.StopGame w).StopGame w' = r.StopGame w) := by
  have hnop : ∀ (s : Room) (v : WinResult), s.state ≠ RoomState.playing →
      s.StopGame v = s := by
    intro s v hs
    unfold Room.StopGame
    rw [if_pos hs]
  refine ⟨hnop r w, ?_, ?_⟩
  · intro h
    unfold Room.StopGame
    rw [if_neg (by rw [h]; simp)]
    refine ⟨rfl, rfl, ?_, rfl, ?_⟩
    · intro hcl
      simp [hcl]
    · simp [gameOverCount, List.countP_append]
  · by_cases h : r.state = RoomState.playing
    · have h1 : (r.StopGame w).state = RoomState.ended := by
        unfold Room.StopGame
        rw [if_neg (by rw [h]; simp)]
      exact hnop (r.StopGame w) w' (by rw [h1]; simp)
    · rw [hnop r w h]
      exact hnop r w' h

/-- Concrete room for the C7 witness. -/
def c7r : Room :=
  { code := "ROOM", state := RoomState.playing, remainingTime := GameDuration }

theorem C7_stopGame_idempotent_witness :
    c7r.state = RoomState.playing ∧
    (c7r.StopGame WinResult.police).state = RoomState.ended ∧
    ((c7r.StopGame WinResult.police).StopGame WinResult.police =
      c7r.StopGame WinResult.police) ∧
    gameOverCount (c7r.StopGame WinResult.police).broadcasts = 1 := by
  have h := C7_stopGame_idempotent c7r WinResult.police WinResult.police
  refine ⟨rfl, (h.2.1 rfl).1, h.2.2, ?_⟩
  have := (h.2.1 rfl).2.2.2.2
  rw [this]
  rfl

/-- Spawn assignment used by concrete room scenarios. -/
def constSpawn : String → ℚ × ℚ := fun _ => (100, 100)

/-- C9 counterexample: starting from a fresh room, `PrepareGame` after
`StopGame` transitions the room directly from ended to playing with no
intervening reset, because `PrepareGame` does not guard on the current
state. -/
theorem C9_counterexample :
    (((NewRoom "AAAA").PrepareGame constSpawn).StopGame
      WinResult.police).state = RoomState.ended ∧
    ((((NewRoom "AAAA").PrepareGame constSpawn).StopGame
      WinResult.police).PrepareGame constSpawn).state = RoomState.playing := by
  constructor <;> rfl

/-- C9 (amended): the transitions the three lifecycle operations actually
perform: `PrepareGame` sets the state to playing from any state (it does not
check the current state), `StopGame` transitions playing to ended and is
otherwise a no-op, and `Reset` sets the state to waiting from any state. -/
theorem C9_transitions (r : Room) (f : String → ℚ × ℚ) (w : WinResult) :
    (r.PrepareGame f).state = RoomState.playing ∧
    (r.state = RoomState.playing →
      (r.StopGame w).state = RoomState.ended) ∧
    (r.state ≠ RoomState.playing → r.StopGame w = r) ∧
    (r.Reset).state = RoomState.waiting := by
  refine ⟨rfl, ?_, ?_, rfl⟩
  · intro h
    unfold Room.StopGame
    rw [if_neg (by rw [h]; simp)]
  · intro h
    unfold Room.StopGame
    rw [if_pos h]

/-- Concrete playing room for the C9 witness. -/
def c9r : Room :=
  { code := "CCCC", state := RoomState.playing, remainingTime := GameDuration }

theorem C9_transitions_witness :
    c9r.state = RoomState.playing ∧
    (NewRoom "BBBB").state ≠ RoomState.playing ∧
    (c9r.PrepareGame constSpawn).state = RoomState.playing ∧
    (c9r.StopGame WinResult.thief).state = RoomState.ended ∧
    ((NewRoom "BBBB").StopGame WinResult.thief = NewRoom "BBBB") ∧
    (c9r.Reset).state = RoomState.waiting := by
  have h1 := C9_transitions c9r constSpawn WinResult.thief
  have h2 := C9_transitions (NewRoom "BBBB") constSpawn WinResult.thief
  exact ⟨rfl, by simp [NewRoom], h1.1, h1.2.1 rfl, h2.2.2.1 (by simp [NewRoom]),
    h1.2.2.2⟩

theorem distanceSq_nonneg (a b c d : ℚ) : 0 ≤ DistanceSq a b c d :=
  add_nonneg (mul_self_nonneg _) (mul_self_nonneg _)

/-- C8: a movement request is first clamped to map bounds (never rejected for
being out of bounds); it is rejected when the room is not playing; otherwise
it is rejected as a speed violation exactly when the Euclidean distance from
the player's current (last accepted) position to the clamped target exceeds
`MoveSpeed * elapsed * 1.5`, where the elapsed time defaults to one tick
interval when no prior accepted update exists; and on acceptance the position
and last-move timestamp are overwritten and the move is broadcast. -/
theorem C8_movement (rs : RoomState) (p : Player) (now reqX reqY : ℚ) :
    (rs ≠ RoomState.playing →
      HandlePlayerMove rs p now reqX reqY = MoveOutcome.notPlaying) ∧
    (p.lastMoveTime = Option.none →
      elapsedSinceLastMove p now = TickInterval) ∧
    (rs = RoomState.playing → 0 ≤ elapsedSinceLastMove p now →
      ((HandlePlayerMove rs p now reqX reqY = MoveOutcome.speedViolation ↔
        ((MoveSpeed * elapsedSinceLastMove p now * (3 / 2) : ℚ) : ℝ) <
          Real.sqrt ((DistanceSq p.x p.y (ClampPosition reqX reqY).1
            (ClampPosition reqX reqY).2 : ℚ) : ℝ)) ∧
      (HandlePlayerMove rs p now reqX reqY ≠ MoveOutcome.speedViolation →
        HandlePlayerMove rs p now reqX reqY = MoveOutcome.accepted
          { p with x := (ClampPosition reqX reqY).1,
                   y := (ClampPosition reqX reqY).2,
                   lastMoveTime := Option.some now }
          (Message.playerMove p.id (ClampPosition reqX reqY).1
            (ClampPosition reqX reqY).2)))) := by
  refine ⟨?_, ?_, ?_⟩
  · intro h
    unfold HandlePlayerMove
    rw [if_pos h]
  · intro h
    unfold elapsedSinceLastMove
    rw [h]
  · intro h h0
    have hM : (0 : ℚ) ≤ MoveSpeed * elapsedSinceLastMove p now * (3 / 2) := by
      have : (0 : ℚ) ≤ MoveSpeed := by norm_num [MoveSpeed]
      positivity
    have hD : (0 : ℚ) ≤ DistanceSq p.x p.y (ClampPosition reqX reqY).1
        (ClampPosition reqX reqY).2 := distanceSq_nonneg _ _ _ _
    have hlt : (decide (MoveSpeed * elapsedSinceLastMove p now * (3 / 2) < 0))
        = false := by
      simp only [decide_eq_false_iff_not, not_lt]
      exact hM
    have hmove : HandlePlayerMove rs p now reqX reqY =
        if (MoveSpeed * elapsedSinceLastMove p now * (3 / 2)) *
            (MoveSpeed * elapsedSinceLastMove p now * (3 / 2)) <
            DistanceSq p.x p.y (ClampPosition reqX reqY).1
              (ClampPosition reqX reqY).2 then
          MoveOutcome.speedViolation
        else MoveOutcome.accepted
          { p with x := (ClampPosition reqX reqY).1,
                   y := (ClampPosition reqX reqY).2,
                   lastMoveTime := Option.some now }
          (Message.playerMove p.id (ClampPosition reqX reqY).1
            (ClampPosition reqX reqY).2) := by
      unfold HandlePlayerMove
      rw [if_neg (by rw [h]; simp)]
      simp only [hlt, Bool.false_or, decide_eq_true_eq]
    have hsqrt : (MoveSpeed * elapsedSinceLastMove p now * (3 / 2)) *
        (MoveSpeed * elapsedSinceLastMove p now * (3 / 2)) <
        DistanceSq p.x p.y (ClampPosition reqX reqY).1
          (ClampPosition reqX reqY).2 ↔
        ((MoveSpeed * elapsedSinceLastMove p now * (3 / 2) : ℚ) : ℝ) <
          Real.sqrt ((DistanceSq p.x p.y (ClampPosition reqX reqY).1
            (ClampPosition reqX reqY).2 : ℚ) : ℝ) := by
      rw [Real.lt_sqrt (by exact_mod_cast hM)]
      rw [sq]
      constructor
      · intro hh
        exact_mod_cast hh
      · intro hh
        exact_mod_cast hh
    constructor
    · rw [hmove]
      split_ifs with hc
      · exact iff_of_true rfl (hsqrt.mp hc)
      · exact iff_of_false (by simp) (fun hr => hc (hsqrt.mpr hr))
    · intro hne
      rw [hmove] at hne ⊢
      split_ifs at hne ⊢ with hc
      · exact absurd rfl hne
      · rfl

/-- Concrete player for the C8 witness: position (100, 100), last accepted
update at time 0. -/
def c8p : Player :=
  { id := "p1", role := Role.police, pstate := PlayerState.free, x := 100,
    y := 100, lastMoveTime := Option.some 0 }

theorem C8_movement_witness :
    DistanceSq 100 100 100 10100 = 10000 * 10000 ∧
    ClampPosition 100 10100 = (100, 5710) ∧
    (0 : ℚ) ≤ elapsedSinceLastMove c8p (2 / 125) ∧
    HandlePlayerMove RoomState.playing c8p (2 / 125) 100 10100 =
      MoveOutcome.speedViolation ∧
    HandlePlayerMove RoomState.playing c8p 30 100 10100 =
      MoveOutcome.accepted
        { c8p with x := 100, y := 5710, lastMoveTime := Option.some 30 }
        (Message.playerMove "p1" 100 5710) ∧
    HandlePlayerMove RoomState.waiting c8p 30 100 10100 =
      MoveOutcome.notPlaying := by
  have hclamp : ClampPosition 100 10100 = ((100 : ℚ), (5710 : ℚ)) := by
    norm_num [ClampPosition, PlayerRadius, MapWidth, MapHeight]
  have hD : DistanceSq c8p.x c8p.y (ClampPosition 100 10100).1
      (ClampPosition 100 10100).2 = 31472100 := by
    rw [hclamp]
    norm_num [DistanceSq, c8p]
  have hE1 : elapsedSinceLastMove c8p (2 / 125) = 2 / 125 := by
    norm_num [elapsedSinceLastMove, c8p]
  have hE2 : elapsedSinceLastMove c8p 30 = 30 := by
    norm_num [elapsedSinceLastMove, c8p]
  have h01 : (0 : ℚ) ≤ elapsedSinceLastMove c8p (2 / 125) := by
    rw [hE1]; norm_num
  have h02 : (0 : ℚ) ≤ elapsedSinceLastMove c8p 30 := by
    rw [hE2]; norm_num
  have hth1 := (C8_movement RoomState.playing c8p (2 / 125) 100 10100).2.2
    rfl h01
  have hth2 := (C8_movement RoomState.playing c8p 30 100 10100).2.2 rfl h02
  have hsq1 : ((MoveSpeed * elapsedSinceLastMove c8p (2 / 125) * (3 / 2) : ℚ)
      : ℝ) < Real.sqrt ((DistanceSq c8p.x c8p.y (ClampPosition 100 10100).1
        (ClampPosition 100 10100).2 : ℚ) : ℝ) := by
    rw [hD, hE1, Real.lt_sqrt (by push_cast; norm_num [MoveSpeed])]
    push_cast
    norm_num [MoveSpeed]
  have hsq2 : ¬(((MoveSpeed * elapsedSinceLastMove c8p 30 * (3 / 2) : ℚ)
      : ℝ) < Real.sqrt ((DistanceSq c8p.x c8p.y (ClampPosition 100 10100).1
        (ClampPosition 100 10100).2 : ℚ) : ℝ)) := by
    rw [hD, hE2]
    rw [not_lt]
    have h1 : Real.sqrt (((31472100 : ℚ) : ℝ)) =
        Real.sqrt (((5610 : ℝ)) ^ 2) := by
      norm_num
    rw [h1, Real.sqrt_sq (by norm_num)]
    push_cast
    norm_num [MoveSpeed]
  have hne2 : HandlePlayerMove RoomState.playing c8p 30 100 10100 ≠
      MoveOutcome.speedViolation :=
    fun heq => hsq2 (hth2.1.mp heq)
  have hacc := hth2.2 hne2
  refine ⟨by norm_num [DistanceSq], hclamp, h01, hth1.1.mpr hsq1, ?_,
    (C8_movement RoomState.waiting c8p 30 100 10100).1 (by simp)⟩
  rw [hacc]
  simp [hclamp, c8p]

/-- C5: if during a tick some free thief among this tick's rescue candidates
has their rescue gauge reach `RescueDuration`, then at the end of the tick no
thief in the room is detained (every currently-detained thief was released)
and that rescuer's rescue gauge is exactly zero. -/
theorem C5_jailbreak (ps : List Player) (hnd : (ps.map Player.id).Nodup)
    (c : Player)
    (hc : c ∈ FindJailRescueCandidates
      (arrestPhase (ps.map stepInvincible)) JailX JailY)
    (hfire : RescueDuration ≤ c.rescueGauge + TickInterval) :
    (∀ q ∈ gameLoopTickPlayers ps, q.role = Role.thief →
      q.pstate ≠ PlayerState.arrested) ∧
    ∀ i (h1 : i < (gameLoopTickPlayers ps).length),
      (gameLoopTickPlayers ps)[i].id = c.id →
      (gameLoopTickPlayers ps)[i].rescueGauge = 0 := by
  have h := tick_fire ps hnd c hc hfire
  refine ⟨?_, h.2⟩
  intro q hq hrole
  exact h.1 q hq (by rw [hrole]; rfl)

/-- Rescuing thief for the C5 witness: free, at the jail, one tick short of a
completed rescue gauge. -/
def c5t1 : Player :=
  { id := "t1", role := Role.thief, pstate := PlayerState.free, x := JailX,
    y := JailY, rescueGauge := 39 / 20 }

/-- Detained thief for the C5 witness. -/
def c5t2 : Player :=
  { id := "t2", role := Role.thief, pstate := PlayerState.arrested, x := 200,
    y := 200 }

theorem C5_jailbreak_witness :
    (([c5t1, c5t2].map Player.id).Nodup) ∧
    c5t1 ∈ FindJailRescueCandidates
      (arrestPhase ([c5t1, c5t2].map stepInvincible)) JailX JailY ∧
    RescueDuration ≤ c5t1.rescueGauge + TickInterval ∧
    (List.get (gameLoopTickPlayers [c5t1, c5t2])
      ⟨1, by rw [gameLoopTickPlayers_length]; norm_num⟩).pstate ≠
      PlayerState.arrested ∧
    (List.get (gameLoopTickPlayers [c5t1, c5t2])
      ⟨0, by rw [gameLoopTickPlayers_length]; norm_num⟩).rescueGauge = 0 := by
  have hnd : (([c5t1, c5t2].map Player.id)).Nodup := by
    simp [c5t1, c5t2]
  have e1 : [c5t1, c5t2].map stepInvincible = [c5t1, c5t2] := by
    simp [stepInvincible, c5t1, c5t2, Player.IsInvincible]
  have e2 : FindArrestPairs [c5t1, c5t2] = [] := by
    simp [FindArrestPairs, c5t1, c5t2, Role.isPolice]
  have e3 : arrestPhase [c5t1, c5t2] = [c5t1, c5t2] := by
    unfold arrestPhase
    rw [e2]
    rfl
  have e4 : FindJailRescueCandidates [c5t1, c5t2] JailX JailY = [c5t1] := by
    simp only [FindJailRescueCandidates, List.filter]
    norm_num [InJailRange, DistanceSq, c5t1, c5t2, JailX, JailY, JailRange,
      Role.isThief, Player.IsFree, MapWidth, MapHeight]
  have hmem : c5t1 ∈ FindJailRescueCandidates
      (arrestPhase ([c5t1, c5t2].map stepInvincible)) JailX JailY := by
    rw [e1, e3, e4]
    simp
  have hfire : RescueDuration ≤ c5t1.rescueGauge + TickInterval := by
    norm_num [RescueDuration, c5t1, TickInterval]
  have h := C5_jailbreak [c5t1, c5t2] hnd c5t1 hmem hfire
  have hlen : (gameLoopTickPlayers [c5t1, c5t2]).length = 2 := by
    rw [gameLoopTickPlayers_length]
    norm_num
  have hb1 : 1 < (gameLoopTickPlayers [c5t1, c5t2]).length := by
    rw [hlen]; norm_num
  have hb0 : 0 < (gameLoopTickPlayers [c5t1, c5t2]).length := by
    rw [hlen]; norm_num
  refine ⟨hnd, hmem, hfire, ?_, ?_⟩
  · have hrole : (gameLoopTickPlayers [c5t1, c5t2])[1].role = Role.thief := by
      have := ((tickRel_gameLoopTickPlayers [c5t1, c5t2]).2 1 (by norm_num)
        hb1).2.1
      rw [this]
      simp [c5t2]
    have := h.1 ((gameLoopTickPlayers [c5t1, c5t2]).get ⟨1, hb1⟩)
      (List.get_mem _ _ hb1) (by rw [List.get_eq_getElem]; exact hrole)
    exact this
  · have hid : (gameLoopTickPlayers [c5t1, c5t2])[0].id = c5t1.id := by
      have := ids_eq_getElem (gameLoopTickPlayers_ids [c5t1, c5t2]) 0 hb0
        (by norm_num)
      rw [this]
      simp
    have := h.2 0 hb0 hid
    rw [List.get_eq_getElem]
    exact this

theorem rescuePhase_ids (ps : List Player) (cands : List Player) :
    (rescuePhase ps cands).map Player.id = ps.map Player.id := by
  unfold rescuePhase
  exact rescueFold_ids _ _

set_option maxHeartbeats 1000000 in
/-- C6: at the end of any tick, every free thief whose squared distance to
the jail exceeds the squared rescue range (so not a rescue candidate this
tick) has a rescue gauge of exactly zero; in particular a single
out-of-range tick clears any partial rescue progress, so there is no
carry-over across a gap in jail contact. -/
theorem C6_rescue_reset (ps : List Player) (hnd : (ps.map Player.id).Nodup)
    (i : Nat) (h1 : i < (gameLoopTickPlayers ps).length)
    (hrole : (gameLoopTickPlayers ps)[i].role = Role.thief)
    (hfree : (gameLoopTickPlayers ps)[i].pstate = PlayerState.free)
    (hdist : JailRange * JailRange <
      DistanceSq (gameLoopTickPlayers ps)[i].x (gameLoopTickPlayers ps)[i].y
        JailX JailY) :
    (gameLoopTickPlayers ps)[i].rescueGauge = 0 := by
  have hips : i < ps.length := by
    rw [← gameLoopTickPlayers_length ps]; exact h1
  have hmain : gameLoopTickPlayers ps = rescueResetPhase
      (rescuePhase (arrestPhase (ps.map stepInvincible))
        (FindJailRescueCandidates (arrestPhase (ps.map stepInvincible))
          JailX JailY))
      ((FindJailRescueCandidates (arrestPhase (ps.map stepInvincible))
        JailX JailY).map (fun c => c.id)) := rfl
  have hi2 : i < (arrestPhase (ps.map stepInvincible)).length := by
    rw [arrestPhase_length, List.length_map]; exact hips
  have hi3 : i < (rescuePhase (arrestPhase (ps.map stepInvincible))
      (FindJailRescueCandidates (arrestPhase (ps.map stepInvincible))
        JailX JailY)).length := by
    rw [rescuePhase_length]; exact hi2
  have hids2 : (arrestPhase (ps.map stepInvincible)).map Player.id =
      ps.map Player.id := by
    rw [arrestPhase_ids, stepInvincible_map_ids]
  have hnd2 : ((arrestPhase (ps.map stepInvincible)).map Player.id).Nodup := by
    rw [hids2]; exact hnd
  have hpre : Pointwise TickRel ps (arrestPhase (ps.map stepInvincible)) :=
    Pointwise.comp tickRel_trans
      (Pointwise.of_map stepInvincible tickRel_stepInvincible ps)
      (tickRel_arrestPhase _)
  have hrel3 : Pointwise TickRel ps (rescuePhase
      (arrestPhase (ps.map stepInvincible))
      (FindJailRescueCandidates (arrestPhase (ps.map stepInvincible))
        JailX JailY)) :=
    Pointwise.comp tickRel_trans hpre (tickRel_rescuePhase _ _)
  have hreltick := tickRel_gameLoopTickPlayers ps
  have hx3 : (rescuePhase (arrestPhase (ps.map stepInvincible))
      (FindJailRescueCandidates (arrestPhase (ps.map stepInvincible))
        JailX JailY))[i].x = (gameLoopTickPlayers ps)[i].x := by
    rw [(hrel3.2 i hips hi3).2.2.1, (hreltick.2 i hips h1).2.2.1]
  have hy3 : (rescuePhase (arrestPhase (ps.map stepInvincible))
      (FindJailRescueCandidates (arrestPhase (ps.map stepInvincible))
        JailX JailY))[i].y = (gameLoopTickPlayers ps)[i].y := by
    rw [(hrel3.2 i hips hi3).2.2.2.1, (hreltick.2 i hips h1).2.2.2.1]
  have hrole3 : (rescuePhase (arrestPhase (ps.map stepInvincible))
      (FindJailRescueCandidates (arrestPhase (ps.map stepInvincible))
        JailX JailY))[i].role = Role.thief := by
    rw [(hrel3.2 i hips hi3).2.1, ← (hreltick.2 i hips h1).2.1]
    exact hrole
  have hi4 : i < (rescueResetPhase (rescuePhase
      (arrestPhase (ps.map stepInvincible))
      (FindJailRescueCandidates (arrestPhase (ps.map stepInvincible))
        JailX JailY))
      ((FindJailRescueCandidates (arrestPhase (ps.map stepInvincible))
        JailX JailY).map (fun c => c.id))).length := by
    rw [rescueResetPhase_length]; exact hi3
  have hfree3 : (rescuePhase (arrestPhase (ps.map stepInvincible))
      (FindJailRescueCandidates (arrestPhase (ps.map stepInvincible))
        JailX JailY))[i].pstate = PlayerState.free := by
    have := rescueResetPhase_entry_pstate (rescuePhase
      (arrestPhase (ps.map stepInvincible))
      (FindJailRescueCandidates (arrestPhase (ps.map stepInvincible))
        JailX JailY))
      ((FindJailRescueCandidates (arrestPhase (ps.map stepInvincible))
        JailX JailY).map (fun c => c.id)) i hi3 hi4
    rw [← this, ← List.getElem_of_eq hmain h1]
    exact hfree
  have hids3 : (rescuePhase (arrestPhase (ps.map stepInvincible))
      (FindJailRescueCandidates (arrestPhase (ps.map stepInvincible))
        JailX JailY)).map Player.id =
      (arrestPhase (ps.map stepInvincible)).map Player.id :=
    rescuePhase_ids _ _
  have hnotin : (rescuePhase (arrestPhase (ps.map stepInvincible))
      (FindJailRescueCandidates (arrestPhase (ps.map stepInvincible))
        JailX JailY))[i].id ∉
      (FindJailRescueCandidates (arrestPhase (ps.map stepInvincible))
        JailX JailY).map (fun c => c.id) := by
    intro hin
    rcases List.mem_map.mp hin with ⟨c, hc, hcid⟩
    have hid23 : (rescuePhase (arrestPhase (ps.map stepInvincible))
        (FindJailRescueCandidates (arrestPhase (ps.map stepInvincible))
          JailX JailY))[i].id =
        (arrestPhase (ps.map stepInvincible))[i].id :=
      ids_eq_getElem hids3 i hi3 hi2
    have hck : (arrestPhase (ps.map stepInvincible))[i] = c :=
      cand_eq_getElem _ hnd2 JailX JailY c hc i hi2 (by
        rw [← hid23, hcid])
    have hcin : InJailRange c JailX JailY = true := by
      have hprops := (List.mem_filter.mp hc).2
      rw [Bool.and_eq_true, Bool.and_eq_true] at hprops
      exact hprops.2
    rw [InJailRange, decide_eq_true_eq] at hcin
    have hcx : c.x = (gameLoopTickPlayers ps)[i].x := by
      rw [← hck, (hpre.2 i hips hi2).2.2.1, ← (hreltick.2 i hips h1).2.2.1]
    have hcy : c.y = (gameLoopTickPlayers ps)[i].y := by
      rw [← hck, (hpre.2 i hips hi2).2.2.2.1, ← (hreltick.2 i hips h1).2.2.2.1]
    rw [hcx, hcy] at hcin
    exact absurd hcin (not_le.mpr hdist)
  have hcond : ((rescuePhase (arrestPhase (ps.map stepInvincible))
      (FindJailRescueCandidates (arrestPhase (ps.map stepInvincible))
        JailX JailY))[i].role.isThief &&
      (rescuePhase (arrestPhase (ps.map stepInvincible))
        (FindJailRescueCandidates (arrestPhase (ps.map stepInvincible))
          JailX JailY))[i].IsFree &&
      !(((FindJailRescueCandidates (arrestPhase (ps.map stepInvincible))
        JailX JailY).map (fun c => c.id)).contains
          (rescuePhase (arrestPhase (ps.map stepInvincible))
            (FindJailRescueCandidates (arrestPhase (ps.map stepInvincible))
              JailX JailY))[i].id)) = true := by
    rw [Bool.and_eq_true, Bool.and_eq_true]
    refine ⟨⟨?_, ?_⟩, ?_⟩
    · rw [hrole3]
      rfl
    · rw [Player.IsFree]
      simp [hfree3]
    · simp [hnotin]
  rw [List.getElem_of_eq hmain h1]
  rw [rescueResetPhase_getElem _ _ i hi3 hi4, if_pos hcond]

/-- Free thief far away from the jail with partial rescue progress, for the
C6 witness. -/
def c6t : Player :=
  { id := "t3", role := Role.thief, pstate := PlayerState.free, x := 100,
    y := 100, rescueGauge := 1 }

theorem C6_rescue_reset_witness :
    (([c6t].map Player.id).Nodup) ∧
    (List.get (gameLoopTickPlayers [c6t])
      ⟨0, by rw [gameLoopTickPlayers_length]; norm_num⟩).role = Role.thief ∧
    (List.get (gameLoopTickPlayers [c6t])
      ⟨0, by rw [gameLoopTickPlayers_length]; norm_num⟩).pstate =
      PlayerState.free ∧
    JailRange * JailRange < DistanceSq
      (List.get (gameLoopTickPlayers [c6t])
        ⟨0, by rw [gameLoopTickPlayers_length]; norm_num⟩).x
      (List.get (gameLoopTickPlayers [c6t])
        ⟨0, by rw [gameLoopTickPlayers_length]; norm_num⟩).y JailX JailY ∧
    (List.get (gameLoopTickPlayers [c6t])
      ⟨0, by rw [gameLoopTickPlayers_length]; norm_num⟩).rescueGauge = 0 := by
  have hnd : (([c6t].map Player.id)).Nodup := by simp
  have hb : 0 < (gameLoopTickPlayers [c6t]).length := by
    rw [gameLoopTickPlayers_length]; norm_num
  have e1 : [c6t].map stepInvincible = [c6t] := by
    simp [stepInvincible, c6t, Player.IsInvincible]
  have e2 : FindArrestPairs [c6t] = [] := by
    simp [FindArrestPairs, c6t, Role.isPolice]
  have e3 : arrestPhase [c6t] = [c6t] := by
    unfold arrestPhase
    rw [e2]
    rfl
  have e4 : FindJailRescueCandidates [c6t] JailX JailY = [] := by
    simp only [FindJailRescueCandidates, List.filter]
    norm_num [InJailRange, DistanceSq, c6t, JailX, JailY, JailRange,
      Role.isThief, Player.IsFree, MapWidth, MapHeight]
  have he : gameLoopTickPlayers [c6t] = [{ c6t with rescueGauge := 0 }] := by
    show rescueResetPhase (rescuePhase (arrestPhase ([c6t].map stepInvincible))
      (FindJailRescueCandidates (arrestPhase ([c6t].map stepInvincible))
        JailX JailY))
      ((FindJailRescueCandidates (arrestPhase ([c6t].map stepInvincible))
        JailX JailY).map (fun c => c.id)) = [{ c6t with rescueGauge := 0 }]
    rw [e1, e3, e4]
    show rescueResetPhase [c6t] [] = [{ c6t with rescueGauge := 0 }]
    simp [rescueResetPhase, c6t, Role.isThief, Player.IsFree]
  have hrole : (gameLoopTickPlayers [c6t])[0].role = Role.thief := by
    rw [List.getElem_of_eq he hb]
    simp [c6t]
  have hfree : (gameLoopTickPlayers [c6t])[0].pstate = PlayerState.free := by
    rw [List.getElem_of_eq he hb]
    simp [c6t]
  have hdist : JailRange * JailRange < DistanceSq
      (gameLoopTickPlayers [c6t])[0].x (gameLoopTickPlayers [c6t])[0].y
      JailX JailY := by
    rw [List.getElem_of_eq he hb]
    norm_num [DistanceSq, c6t, JailX, JailY, JailRange, MapWidth, MapHeight]
  have hz := C6_rescue_reset [c6t] hnd 0 hb hrole hfree hdist
  refine ⟨hnd, ?_, ?_, ?_, ?_⟩
  · rw [List.get_eq_getElem]; exact hrole
  · rw [List.get_eq_getElem]; exact hfree
  · rw [List.get_eq_getElem]; exact hdist
  · rw [List.get_eq_getElem]; exact hz

theorem tick_pstate_after_arrest_of_no_fire (ps : List Player)
    (hnd : (ps.map Player.id).Nodup) (hnf : RescueFires ps = false) (i : Nat)
    (hi2 : i < (arrestPhase (ps.map stepInvincible)).length)
    (h2 : i < (gameLoopTickPlayers ps).length)
    (harr2 : (arrestPhase (ps.map stepInvincible))[i].pstate =
      PlayerState.arrested) :
    (gameLoopTickPlayers ps)[i].pstate = PlayerState.arrested := by
  have hips : i < ps.length := by
    rw [← gameLoopTickPlayers_length ps]; exact h2
  have hids2 : (arrestPhase (ps.map stepInvincible)).map Player.id =
      ps.map Player.id := by
    rw [arrestPhase_ids, stepInvincible_map_ids]
  have hnd2 : ((arrestPhase (ps.map stepInvincible)).map Player.id).Nodup := by
    rw [hids2]; exact hnd
  have hcnd : (((FindJailRescueCandidates (arrestPhase
      (ps.map stepInvincible)) JailX JailY).map
        (fun c => c.id)) : List String).Nodup := by
    have := cands_ids_nodup (arrestPhase (ps.map stepInvincible)) hnd2
      JailX JailY
    simpa [Function.comp] using this
  have hno : ∀ k (hk : k < (arrestPhase (ps.map stepInvincible)).length),
      (arrestPhase (ps.map stepInvincible))[k].id ∈
        (FindJailRescueCandidates (arrestPhase (ps.map stepInvincible))
          JailX JailY).map (fun c => c.id) →
      ¬(RescueDuration ≤ (arrestPhase
          (ps.map stepInvincible))[k].rescueGauge + TickInterval) := by
    intro k hk hkin
    rcases List.mem_map.mp hkin with ⟨c, hc, hcid⟩
    have hck : (arrestPhase (ps.map stepInvincible))[k] = c :=
      cand_eq_getElem _ hnd2 JailX JailY c hc k hk (by rw [hcid])
    rw [hck]
    exact no_fire_of_rescueFires_false ps hnf c hc
  have hi3 : i < ((((FindJailRescueCandidates (arrestPhase
      (ps.map stepInvincible)) JailX JailY).map (fun c => c.id))).foldl
        rescueTouch (arrestPhase (ps.map stepInvincible))).length := by
    rw [rescueFold_length]; exact hi2
  have hstep3 := rescueFold_no_fire _ hcnd (arrestPhase
    (ps.map stepInvincible)) hnd2 hno i hi3 hi2
  have hmain : gameLoopTickPlayers ps = rescueResetPhase
      ((((FindJailRescueCandidates (arrestPhase (ps.map stepInvincible))
        JailX JailY).map (fun c => c.id))).foldl rescueTouch
          (arrestPhase (ps.map stepInvincible)))
      ((FindJailRescueCandidates (arrestPhase (ps.map stepInvincible))
        JailX JailY).map (fun c => c.id)) := rfl
  have hi4 : i < (rescueResetPhase
      ((((FindJailRescueCandidates (arrestPhase (ps.map stepInvincible))
        JailX JailY).map (fun c => c.id))).foldl rescueTouch
          (arrestPhase (ps.map stepInvincible)))
      ((FindJailRescueCandidates (arrestPhase (ps.map stepInvincible))
        JailX JailY).map (fun c => c.id))).length := by
    rw [rescueResetPhase_length]; exact hi3
  rw [List.getElem_of_eq hmain h2,
    rescueResetPhase_entry_pstate _ _ i hi3 hi4, hstep3]
  exact harr2

theorem stepInvincible_role (p : Player) : (stepInvincible p).role = p.role := by
  unfold stepInvincible
  split_ifs <;> rfl

theorem stepInvincible_of_free (p : Player)
    (h : p.pstate = PlayerState.free) : stepInvincible p = p := by
  have : p.IsInvincible = false := by
    simp [Player.IsInvincible, h]
  simp [stepInvincible, this]

theorem inArrestRange_congr (a a' b b' : Player) (hax : a'.x = a.x)
    (hay : a'.y = a.y) (hbx : b'.x = b.x) (hby : b'.y = b.y) :
    InArrestRange a' b' = InArrestRange a b := by
  unfold InArrestRange
  rw [hax, hay, hbx, hby]

theorem stepInvincible_x (p : Player) : (stepInvincible p).x = p.x := by
  unfold stepInvincible
  split_ifs <;> rfl

theorem stepInvincible_y (p : Player) : (stepInvincible p).y = p.y := by
  unfold stepInvincible
  split_ifs <;> rfl

/-- C10: no operation of the embedded code ever clears a player's arrest
gauge: `Player.Arrest`, `Player.Release` and `Player.Reset` leave it
unchanged, the tick loop only ever increases it, a released player is
immediately free (never temporarily immune), and a free thief whose retained
gauge is already at `ArrestDuration` is arrested again by the arrest phase of
the first tick in which any police officer is within arrest range — and is
still detained at the end of that tick whenever no rescue completes during
it. -/
theorem C10_gauge_never_cleared (ps : List Player) (p : Player) (i j : Nat)
    (hnd : (ps.map Player.id).Nodup) (hi : i < ps.length)
    (hj : j < ps.length) (h2 : i < (gameLoopTickPlayers ps).length)
    (hi2 : i < (arrestPhase (ps.map stepInvincible)).length) :
    p.Arrest.arrestGauge = p.arrestGauge ∧
    p.Release.arrestGauge = p.arrestGauge ∧
    p.Release.pstate = PlayerState.free ∧
    p.Reset.arrestGauge = p.arrestGauge ∧
    ps[i].arrestGauge ≤ (gameLoopTickPlayers ps)[i].arrestGauge ∧
    (ps[i].role = Role.thief → ps[i].pstate = PlayerState.free →
      ArrestDuration ≤ ps[i].arrestGauge →
      ps[j].role = Role.police →
      InArrestRange ps[j] ps[i] = true →
      (arrestPhase (ps.map stepInvincible))[i].pstate =
        PlayerState.arrested ∧
      (RescueFires ps = false →
        (gameLoopTickPlayers ps)[i].pstate = PlayerState.arrested)) := by
  refine ⟨rfl, rfl, rfl, rfl,
    ((tickRel_gameLoopTickPlayers ps).2 i hi h2).2.2.2.2.2.2, ?_⟩
  intro hthief hfree hgauge hpolice hrange
  have hij : i < (ps.map stepInvincible).length := by
    rw [List.length_map]; exact hi
  have hjj : j < (ps.map stepInvincible).length := by
    rw [List.length_map]; exact hj
  have hip : (ps.map stepInvincible)[i] = ps[i] := by
    rw [List.getElem_map]
    exact stepInvincible_of_free ps[i] hfree
  have harr : (arrestPhase (ps.map stepInvincible))[i].pstate =
      PlayerState.arrested := by
    have hpair : ((ps.map stepInvincible)[j], (ps.map stepInvincible)[i]) ∈
        FindArrestPairs (ps.map stepInvincible) := by
      apply mem_findArrestPairs (ps.map stepInvincible) j i hjj hij
      · rw [List.getElem_map, stepInvincible_role]
        exact hpolice
      · rw [hip]
        exact hthief
      · rw [hip]
        exact hfree
      · have hax : (ps.map stepInvincible)[j].x = ps[j].x := by
          rw [List.getElem_map, stepInvincible_x]
        have hay : (ps.map stepInvincible)[j].y = ps[j].y := by
          rw [List.getElem_map, stepInvincible_y]
        have hbx : (ps.map stepInvincible)[i].x = ps[i].x := by
          rw [List.getElem_map, stepInvincible_x]
        have hby : (ps.map stepInvincible)[i].y = ps[i].y := by
          rw [List.getElem_map, stepInvincible_y]
        rw [inArrestRange_congr ps[j] (ps.map stepInvincible)[j] ps[i]
          (ps.map stepInvincible)[i] hax hay hbx hby]
        exact hrange
    exact arrestFold_arrests (FindArrestPairs (ps.map stepInvincible))
      (ps.map stepInvincible) i hij hi2 (by rw [hip]; exact hgauge)
      ⟨_, hpair, by rw [hip]⟩
  exact ⟨harr, fun hnf => tick_pstate_after_arrest_of_no_fire ps hnd hnf i
    hi2 h2 harr⟩

/-- Police officer for the C10 witness. -/
def c10p : Player :=
  { id := "p9", role := Role.police, pstate := PlayerState.free, x := 0,
    y := 0 }

/-- Free thief for the C10 witness whose retained arrest gauge is already at
the arrest duration (as after a rescue release). -/
def c10t : Player :=
  { id := "t9", role := Role.thief, pstate := PlayerState.free, x := 50,
    y := 0, arrestGauge := 3 / 2 }

/-- The C10 witness thief after one arrest-phase touch. -/
def c10tArr : Player :=
  { c10t with arrestGauge := 31 / 20, pstate := PlayerState.arrested }

theorem C10_gauge_never_cleared_witness :
    (([c10p, c10t].map Player.id).Nodup) ∧
    c10t.Arrest.arrestGauge = 3 / 2 ∧
    c10t.Release.arrestGauge = 3 / 2 ∧
    c10t.Release.pstate = PlayerState.free ∧
    c10t.Reset.arrestGauge = 3 / 2 ∧
    InArrestRange c10p c10t = true ∧
    RescueFires [c10p, c10t] = false ∧
    (List.get (arrestPhase ([c10p, c10t].map stepInvincible))
      ⟨1, by rw [arrestPhase_length, List.length_map]; norm_num⟩).pstate =
      PlayerState.arrested ∧
    (List.get (gameLoopTickPlayers [c10p, c10t])
      ⟨1, by rw [gameLoopTickPlayers_length]; norm_num⟩).pstate =
      PlayerState.arrested := by
  have hnd : (([c10p, c10t].map Player.id)).Nodup := by simp [c10p, c10t]
  have hb2 : 1 < (gameLoopTickPlayers [c10p, c10t]).length := by
    rw [gameLoopTickPlayers_length]; norm_num
  have hb3 : 1 < (arrestPhase ([c10p, c10t].map stepInvincible)).length := by
    rw [arrestPhase_length, List.length_map]; norm_num
  have hrange : InArrestRange c10p c10t = true := by
    norm_num [InArrestRange, DistanceSq, c10p, c10t, ArrestRange]
  have e1 : [c10p, c10t].map stepInvincible = [c10p, c10t] := by
    simp [stepInvincible, c10p, c10t, Player.IsInvincible]
  have e2 : FindArrestPairs [c10p, c10t] = [(c10p, c10t)] := by
    simp only [FindArrestPairs, List.filter, List.flatMap]
    norm_num [c10p, c10t, Role.isPolice, Role.isThief, Player.IsFree,
      InArrestRange, DistanceSq, ArrestRange]
  have e3 : arrestPhase [c10p, c10t] = [c10p, c10tArr] := by
    unfold arrestPhase
    rw [e2]
    show updatePlayer [c10p, c10t] c10t.id touchArrest = [c10p, c10tArr]
    simp [updatePlayer, c10p, c10t, c10tArr, touchArrest, TickInterval,
      ArrestDuration]
    norm_num
  have e4 : FindJailRescueCandidates [c10p, c10tArr] JailX JailY = [] := by
    simp [FindJailRescueCandidates, List.filter, c10p, c10tArr, Role.isThief,
      Player.IsFree]
  have hrf : RescueFires [c10p, c10t] = false := by
    unfold RescueFires
    simp only [e1, e3, e4, List.any_nil]
  have h := C10_gauge_never_cleared [c10p, c10t] c10t 1 0 hnd (by norm_num)
    (by norm_num) hb2 hb3
  have himp := h.2.2.2.2.2 (by simp [c10t]) (by simp [c10t])
    (by norm_num [c10t, ArrestDuration]) (by simp [c10p]) (by
      have : ([c10p, c10t] : List Player)[0] = c10p := rfl
      have h1 : ([c10p, c10t] : List Player)[1] = c10t := rfl
      rw [this, h1]
      exact hrange)
  refine ⟨hnd, ?_, ?_, ?_, ?_, hrange, hrf, ?_, ?_⟩
  · rw [h.1]
    rfl
  · rw [h.2.1]
    rfl
  · exact h.2.2.1
  · rw [h.2.2.2.1]
    rfl
  · rw [List.get_eq_getElem]
    exact himp.1
  · rw [List.get_eq_getElem]
    exact himp.2 hrf

/-- Police officer for the C3 evaluation. -/
def c3p : Player :=
  { id := "cp", role := Role.police, pstate := PlayerState.free, x := 100,
    y := 100 }

/-- Thief one tick away from the arrest threshold for the C3 evaluation. -/
def c3t : Player :=
  { id := "ct", role := Role.thief, pstate := PlayerState.free, x := 150,
    y := 100, arrestGauge := 29 / 20 }

/-- The C3 thief after the arresting tick: detained, gauge at the threshold,
position unchanged. -/
def c3tArr : Player :=
  { c3t with arrestGauge := 3 / 2, pstate := PlayerState.arrested }

/-- C3 evaluation: a tick in which a thief's arrest gauge reaches the arrest
duration sets their status to arrested but leaves their position where it
was; the position is not snapped to the jail location (1620, 4608). -/
theorem C3_no_jail_snap :
    gameLoopTickPlayers [c3p, c3t] = [c3p, c3tArr] ∧
    c3tArr.pstate = PlayerState.arrested ∧
    c3tArr.x = 150 ∧ c3tArr.y = 100 ∧
    JailX = 1620 ∧ JailY = 4608 ∧
    ((c3tArr.x, c3tArr.y) ≠ (JailX, JailY)) := by
  have e1 : [c3p, c3t].map stepInvincible = [c3p, c3t] := by
    simp [stepInvincible, c3p, c3t, Player.IsInvincible]
  have e2 : FindArrestPairs [c3p, c3t] = [(c3p, c3t)] := by
    simp only [FindArrestPairs, List.filter, List.flatMap]
    norm_num [c3p, c3t, Role.isPolice, Role.isThief, Player.IsFree,
      InArrestRange, DistanceSq, ArrestRange]
  have e3 : arrestPhase [c3p, c3t] = [c3p, c3tArr] := by
    unfold arrestPhase
    rw [e2]
    show updatePlayer [c3p, c3t] c3t.id touchArrest = [c3p, c3tArr]
    simp [updatePlayer, c3p, c3t, c3tArr, touchArrest, TickInterval,
      ArrestDuration]
    norm_num
  have e4 : FindJailRescueCandidates [c3p, c3tArr] JailX JailY = [] := by
    simp [FindJailRescueCandidates, List.filter, c3p, c3tArr, c3t,
      Role.isThief, Player.IsFree]
  have e5 : gameLoopTickPlayers [c3p, c3t] = [c3p, c3tArr] := by
    show rescueResetPhase (rescuePhase (arrestPhase ([c3p, c3t].map
      stepInvincible)) (FindJailRescueCandidates (arrestPhase ([c3p,
        c3t].map stepInvincible)) JailX JailY))
      ((FindJailRescueCandidates (arrestPhase ([c3p, c3t].map
        stepInvincible)) JailX JailY).map (fun c => c.id)) = [c3p, c3tArr]
    rw [e1, e3, e4]
    show rescueResetPhase [c3p, c3tArr] [] = [c3p, c3tArr]
    simp [rescueResetPhase, c3p, c3tArr, c3t, Role.isThief, Player.IsFree]
  refine ⟨e5, rfl, rfl, rfl, by norm_num [JailX, MapWidth],
    by norm_num [JailY, MapHeight], ?_⟩
  intro hcontra
  have hx : c3tArr.x = JailX := (Prod.mk.injEq _ _ _ _ |>.mp hcontra).1
  rw [show c3tArr.x = (150 : ℚ) from rfl] at hx
  norm_num [JailX, MapWidth] at hx

/-- Lone police officer for the C2 evaluation. -/
def c2police : Player :=
  { id := "po", role := Role.police, pstate := PlayerState.free, x := 100,
    y := 100 }

/-- Playing room with no thieves and one tick left on the clock, for the C2
evaluation. -/
def c2room : Room :=
  { code := "RZ", state := RoomState.playing, players := [c2police],
    remainingTime := TickInterval }

/-- C2 evaluation: when the timer expires in a room with no thieves (so no
free thief exists), the game-loop tick still stops the game with a thief win
and broadcasts it, even though `CheckThiefWin` — defined in logic.go for
exactly this decision but never called by the loop — returns false there. -/
theorem C2_timer_expiry_no_thieves :
    gameLoopTickPlayers c2room.players = [c2police] ∧
    CheckPoliceWin [c2police] = false ∧
    CheckThiefWin [c2police] true = false ∧
    (c2room.gameLoopTick).state = RoomState.ended ∧
    (c2room.gameLoopTick).broadcasts =
      [Message.gameState, Message.gameOver WinResult.thief] := by
  have e1 : [c2police].map stepInvincible = [c2police] := by
    simp [stepInvincible, c2police, Player.IsInvincible]
  have e2 : FindArrestPairs [c2police] = [] := by
    simp [FindArrestPairs, c2police, Role.isThief, Player.IsFree]
  have e3 : arrestPhase [c2police] = [c2police] := by
    unfold arrestPhase
    rw [e2]
    rfl
  have e4 : FindJailRescueCandidates [c2police] JailX JailY = [] := by
    simp [FindJailRescueCandidates, List.filter, c2police, Role.isThief]
  have e5 : gameLoopTickPlayers [c2police] = [c2police] := by
    show rescueResetPhase (rescuePhase (arrestPhase ([c2police].map
      stepInvincible)) (FindJailRescueCandidates (arrestPhase ([c2police].map
        stepInvincible)) JailX JailY))
      ((FindJailRescueCandidates (arrestPhase ([c2police].map
        stepInvincible)) JailX JailY).map (fun c => c.id)) = [c2police]
    rw [e1, e3, e4]
    show rescueResetPhase [c2police] [] = [c2police]
    simp [rescueResetPhase, c2police, Role.isThief]
  have hpw : CheckPoliceWin [c2police] = false := by
    simp [CheckPoliceWin, List.filter, c2police, Role.isThief]
  have htw : CheckThiefWin [c2police] true = false := by
    simp [CheckThiefWin, c2police, Role.isThief]
  have hexp : (decide ((c2room.remainingTime - TickInterval : ℚ) ≤ 0)) =
      true := by
    norm_num [c2room, TickInterval]
  have htick : c2room.gameLoopTick =
      ({ c2room with remainingTime := c2room.remainingTime - TickInterval,
                     players := gameLoopTickPlayers c2room.players,
                     broadcasts := c2room.broadcasts ++ [Message.gameState]
       } : Room).StopGame WinResult.thief := by
    unfold Room.gameLoopTick
    simp only [show c2room.players = [c2police] from rfl, e5, hpw, hexp]
    simp
  refine ⟨by rw [show c2room.players = [c2police] from rfl]; exact e5,
    hpw, htw, ?_, ?_⟩
  · rw [htick]
    rfl
  · rw [htick]
    rfl

/-- First police officer for the C1 evaluation. -/
def c1p1 : Player :=
  { id := "p1", role := Role.police, pstate := PlayerState.free, x := 0,
    y := 0 }

/-- Second police officer for the C1 evaluation, also within arrest range of
the thief. -/
def c1p2 : Player :=
  { id := "p2", role := Role.police, pstate := PlayerState.free, x := 10,
    y := 0 }

/-- Thief simultaneously in range of both officers for the C1 evaluation. -/
def c1t : Player :=
  { id := "t1", role := Role.thief, pstate := PlayerState.free, x := 50,
    y := 0 }

/-- The C1 thief after one deduplicated deposit (one tick interval). -/
def c1tOnce : Player :=
  { c1t with arrestGauge := 1 / 20 }

/-- The C1 thief after the gameLoop tick: two deposits, one per pair. -/
def c1tTwice : Player :=
  { c1t with arrestGauge := 1 / 10 }

/-- C1 evaluation: with two police simultaneously within arrest range of one
free thief, the gameLoop tick deposits one tick interval per (police, thief)
pair, giving the thief 2 · TickInterval of arrest gauge, while
`ProcessArrests` on the same players deduplicates the captors and deposits
exactly one tick interval. -/
theorem C1_gameLoop_double_credit :
    FindArrestPairs [c1p1, c1p2, c1t] = [(c1p1, c1t), (c1p2, c1t)] ∧
    gameLoopTickPlayers [c1p1, c1p2, c1t] = [c1p1, c1p2, c1tTwice] ∧
    c1tTwice.arrestGauge = 2 * TickInterval ∧
    ProcessArrests [c1p1, c1p2, c1t] TickInterval =
      ([c1p1, c1p2, c1tOnce], []) ∧
    c1tOnce.arrestGauge = TickInterval ∧
    (2 * TickInterval : ℚ) ≠ TickInterval := by
  have e1 : [c1p1, c1p2, c1t].map stepInvincible = [c1p1, c1p2, c1t] := by
    simp [stepInvincible, c1p1, c1p2, c1t, Player.IsInvincible]
  have e2 : FindArrestPairs [c1p1, c1p2, c1t] =
      [(c1p1, c1t), (c1p2, c1t)] := by
    simp only [FindArrestPairs, List.filter, List.flatMap]
    norm_num [c1p1, c1p2, c1t, Role.isPolice, Role.isThief, Player.IsFree,
      InArrestRange, DistanceSq, ArrestRange]
  have e3 : arrestPhase [c1p1, c1p2, c1t] = [c1p1, c1p2, c1tTwice] := by
    unfold arrestPhase
    rw [e2]
    show updatePlayer (updatePlayer [c1p1, c1p2, c1t] c1t.id touchArrest)
      c1t.id touchArrest = [c1p1, c1p2, c1tTwice]
    simp [updatePlayer, c1p1, c1p2, c1t, c1tTwice, touchArrest,
      TickInterval, ArrestDuration]
    norm_num
  have e4 : FindJailRescueCandidates [c1p1, c1p2, c1tTwice] JailX JailY =
      [] := by
    simp only [FindJailRescueCandidates, List.filter]
    norm_num [c1p1, c1p2, c1tTwice, c1t, Role.isThief, Player.IsFree,
      InJailRange, DistanceSq, JailRange, JailX, JailY, MapWidth, MapHeight]
  have e5 : gameLoopTickPlayers [c1p1, c1p2, c1t] =
      [c1p1, c1p2, c1tTwice] := by
    show rescueResetPhase (rescuePhase (arrestPhase ([c1p1, c1p2, c1t].map
      stepInvincible)) (FindJailRescueCandidates (arrestPhase ([c1p1, c1p2,
        c1t].map stepInvincible)) JailX JailY))
      ((FindJailRescueCandidates (arrestPhase ([c1p1, c1p2, c1t].map
        stepInvincible)) JailX JailY).map (fun c => c.id)) =
      [c1p1, c1p2, c1tTwice]
    rw [e1, e3, e4]
    show rescueResetPhase [c1p1, c1p2, c1tTwice] [] = [c1p1, c1p2, c1tTwice]
    simp [rescueResetPhase, c1p1, c1p2, c1tTwice, c1t, Role.isThief,
      Player.IsFree, zeroRescueGauge]
  have e6 : ProcessArrests [c1p1, c1p2, c1t] TickInterval =
      ([c1p1, c1p2, c1tOnce], []) := by
    simp only [ProcessArrests, e2]
    norm_num [c1p1, c1p2, c1t, c1tOnce, Role.isThief, List.lookup,
      TickInterval, ArrestDuration]
  refine ⟨e2, e5, by norm_num [c1tTwice, TickInterval], e6,
    by norm_num [c1tOnce, TickInterval], by norm_num [TickInterval]⟩

/-- Detained thief with a positive arrest gauge for the C4 witness. -/
def c4p : Player :=
  { id := "t4", role := Role.thief, pstate := PlayerState.arrested, x := 0,
    y := 0, arrestGauge := 1 }

/-- Witness for C4 at the concrete room of one detained thief and two
ticks: the hypotheses hold and the arrest gauge has not decreased. -/
theorem C4_capture_monotonic_witness :
    ([c4p].map Player.id).Nodup ∧ 0 < [c4p].length ∧
    0 < (gameLoopTickPlayers^[2] [c4p]).length ∧
    c4p.arrestGauge ≤
      ((gameLoopTickPlayers^[2] [c4p]).get
        ⟨0, by rw [iterate_tick_length]; decide⟩).arrestGauge := by
  have hnd : ([c4p].map Player.id).Nodup := by decide
  have h1 : 0 < [c4p].length := by decide
  have h2 : 0 < (gameLoopTickPlayers^[2] [c4p]).length := by
    rw [iterate_tick_length]
    decide
  refine ⟨hnd, h1, h2, ?_⟩
  have hmain := (C4_capture_monotonic [c4p] 2 hnd 0 h1 h2).1
  simpa [List.get_eq_getElem] using hmain
